import Mathlib

/-!
# Azure IPAM configuration source (`ipam/azure.go`)

A shallow embedding of `azureSource` and of its `refresh` operation, together
with the properties of the refresh algorithm: the poll gate, the correlation of
document interfaces with local interfaces, the construction of address pools
and address records, and the single activation point.

Everything `refresh` obtains from outside `azure.go` is explicit:

* the clock, `net.Interfaces`, `http.Get`, the XML decoder, `net.ParseCIDR`
  and `net.ParseIP` are fields of `Env`;
* the address configuration sink (with the address spaces and address pools it
  hands out) is a deterministic state machine over an arbitrary state type `σ`;
* every call that leaves `refresh` is appended to a trace of `Event`s, each
  recording the arguments of the call and what the call returned.
-/

namespace Ipam

/-! ## Values -/

/-- Go `error` values that are not nil. `errAddressExists` is the package level
sentinel that `refresh` compares against; every other error is `other id`. -/
inductive Error where
  | errAddressExists
  | other (id : Nat)
  deriving DecidableEq, Repr

/-- A `net.IP`: a slice of bytes. The nil slice is `[]`. -/
abbrev IP := List Nat

/-- A `net.IPNet`. -/
structure IPNet where
  IP : List Nat
  Mask : List Nat
  deriving DecidableEq, Repr

/-- A `*addressSpace` handed out by the sink. -/
abbrev addressSpace := Nat

/-- A `*addressPool` handed out by an address space. -/
abbrev addressPool := Nat

/-- A `net.Interface`, restricted to the two fields `refresh` reads. The bytes of
the hardware address are natural numbers below 256. -/
structure NetInterface where
  Name : String
  HardwareAddr : List Nat
  deriving DecidableEq, Repr

/-- An `IPAddress` element of the host agent document. -/
structure xmlIPAddress where
  Address : String
  IsPrimary : Bool
  deriving DecidableEq, Repr

/-- An `IPSubnet` element of the host agent document. -/
structure xmlIPSubnet where
  Prefix : String
  IPAddress : List xmlIPAddress
  deriving DecidableEq, Repr

/-- An `Interface` element of the host agent document. -/
structure xmlInterface where
  MacAddress : String
  IsPrimary : Bool
  IPSubnet : List xmlIPSubnet
  deriving DecidableEq, Repr

/-- Azure host agent XML document format. -/
structure xmlDocument where
  Interface : List xmlInterface
  deriving DecidableEq, Repr

/-! ## Constants -/

/-- Host URL to query. -/
def azureQueryUrl : String :=
  "http://169.254.169.254/machine/plugins?comp=nmagent&type=getinterfaceinfov1"

/-- One `time.Second`, in nanoseconds. -/
def Second : Int := 1000000000

/-- Minimum delay between consecutive polls. -/
def azureDefaultMinPollPeriod : Int := 30 * Second

/-! ## Time -/

/-- Largest `time.Duration` (an `int64` count of nanoseconds). -/
def maxDuration : Int := 2 ^ 63 - 1

/-- Smallest `time.Duration`. -/
def minDuration : Int := -(2 ^ 63)

/-- The duration `t.Sub(u)` of Go: the difference `t - u`, replaced by the
largest (smallest) duration when it does not fit. Instants are counted in
nanoseconds from the zero `time.Time`. -/
def timeSub (t u : Int) : Int :=
  if t - u > maxDuration then maxDuration
  else if t - u < minDuration then minDuration
  else t - u

/-- The duration `time.Since(t)` when the clock reads `clock`. -/
def timeSince (clock t : Int) : Int := timeSub clock t

/-! ## Strings -/

/-- The digits used by `net.HardwareAddr.String`. -/
def hexDigit : List Char := "0123456789abcdef".toList

/-- The two digits written for one byte: `hexDigit[b>>4]`, `hexDigit[b&0xF]`. -/
def hexByte (b : Nat) : List Char :=
  [hexDigit.getD (b / 16 % 16) '0', hexDigit.getD (b % 16) '0']

/-- The text of `net.HardwareAddr.String`: the bytes in hexadecimal, separated by
colons; the empty string for the empty address. -/
def hardwareAddrChars : List Nat → List Char
  | [] => []
  | [b] => hexByte b
  | b :: rest => hexByte b ++ ':' :: hardwareAddrChars rest

/-- Go `net.HardwareAddr.String`. -/
def HardwareAddr.String (a : List Nat) : String := String.mk (hardwareAddrChars a)

/-- Go `strings.Replace(s, ":", "", -1)`: every colon is removed. -/
def replaceColons (s : String) : String := String.mk (s.data.filter (fun c => c != ':'))

/-- Go `unicode.ToLower` on one rune: the ASCII capitals are shifted to the small
letters, other ASCII runes are kept, and runes outside ASCII go through the
Unicode case tables, which are the parameter `unicodeLower`. -/
def toLowerRune (unicodeLower : Char → Char) (c : Char) : Char :=
  if c.toNat ≤ 127 then
    if 65 ≤ c.toNat ∧ c.toNat ≤ 90 then Char.ofNat (c.toNat + 32) else c
  else unicodeLower c

/-- Go `strings.ToLower`. -/
def ToLower (unicodeLower : Char → Char) (s : String) : String :=
  String.mk (s.data.map (toLowerRune unicodeLower))

/-! ## The environment and the sink -/

/-- Everything `refresh` reads from outside `azure.go` during one call. -/
structure Env where
  /-- the clock as read by `time.Since(s.lastRefresh)` -/
  sinceNow : Int
  /-- the clock as read by `time.Now()` -/
  now : Int
  /-- the result of `net.Interfaces()` -/
  netInterfaces : Except Error (List NetInterface)
  /-- the body returned by `http.Get`, or its error -/
  httpGet : String → Except Error String
  /-- the result of decoding a body into an `xmlDocument` -/
  xmlDecode : String → Except Error xmlDocument
  /-- the network returned by `net.ParseCIDR`, or its error -/
  parseCIDR : String → Except Error IPNet
  /-- the result of `net.ParseIP`, nil (`[]`) when the text is not an address -/
  parseIP : String → IP
  /-- the Unicode case tables used by `strings.ToLower` outside ASCII -/
  unicodeToLower : Char → Char
  /-- the package constant `localDefaultAddressSpaceId` -/
  localDefaultAddressSpaceId : String
  /-- the package constant `localScope` -/
  localScope : String

/-- The address configuration sink, with the operations of the address spaces and
address pools it hands out. Each operation reads and updates the state `σ` of the
address manager and returns what the Go method returns. -/
structure addressConfigSink (σ : Type) where
  newAddressSpace : String → String → σ → (addressSpace × Option Error) × σ
  newAddressPool : addressSpace → String → Int → IPNet → σ →
    (addressPool × Option Error) × σ
  newAddressRecord : addressPool → IP → σ → Option Error × σ
  setAddressSpace : addressSpace → σ → σ

/-- Microsoft Azure IPAM configuration source. -/
structure azureSource (σ : Type) where
  name : String
  sink : Option (addressConfigSink σ)
  lastRefresh : Int
  minPollPeriod : Int

/-- A call that leaves `refresh`, with what it returned. -/
inductive Event where
  | netInterfaces
  | newAddressSpace (id scope : String) (ret : addressSpace) (err : Option Error)
  | httpGet (url : String)
  | xmlDecode
  | newAddressPool (space : addressSpace) (ifName : String) (priority : Int)
      (subnet : IPNet) (ret : addressPool) (err : Option Error)
  | newAddressRecord (pool : addressPool) (address : IP) (err : Option Error)
  | setAddressSpace (space : addressSpace)
  | bodyClose
  deriving DecidableEq, Repr

/-- How a call of `refresh` ends: it returns an error value (nil is `none`), or it
invokes a method on the nil sink, which is a run-time panic. -/
inductive Result where
  | returned (err : Option Error)
  | panicked
  deriving DecidableEq, Repr

/-- What one call of `refresh` leaves behind. -/
structure Outcome (σ : Type) where
  result : Result
  source : azureSource σ
  world : σ
  trace : List Event

/-- The state of a loop of `refresh`: the error that ended it (if any), the state
of the address manager and the calls made. -/
structure Step (σ : Type) where
  err : Option Error
  world : σ
  trace : List Event

/-- Run `k` after `r` unless `r` ended with an error. -/
def Step.seq {σ : Type} (r : Step σ) (k : σ → Step σ) : Step σ :=
  match r.err with
  | some e => ⟨some e, r.world, r.trace⟩
  | none => ⟨(k r.world).err, (k r.world).world, r.trace ++ (k r.world).trace⟩

/-- Put the call `ev` in front of the calls of `r`. -/
def Step.after {σ : Type} (ev : Event) (r : Step σ) : Step σ :=
  ⟨r.err, r.world, ev :: r.trace⟩

/-! ## The adapter -/

/-- Creates the Azure source. -/
def newAzureSource (σ : Type) : azureSource σ × Option Error :=
  (⟨"Azure", none, 0, azureDefaultMinPollPeriod⟩, none)

/-- Starts the Azure source. -/
def start {σ : Type} (s : azureSource σ) (sink : addressConfigSink σ) :
    azureSource σ × Option Error :=
  ({ s with sink := some sink }, none)

/-- Stops the Azure source. -/
def stop {σ : Type} (s : azureSource σ) : azureSource σ :=
  { s with sink := none }

/-- The loop `for _, a := range s.IPAddress`. -/
def refreshAddresses {σ : Type} (env : Env) (sink : addressConfigSink σ) (ap : addressPool) :
    List xmlIPAddress → σ → Step σ
  | [], w => ⟨none, w, []⟩
  | a :: rest, w =>
    -- Primary addresses are reserved for the host.
    if a.IsPrimary then refreshAddresses env sink ap rest w
    else
      let address := env.parseIP a.Address
      match sink.newAddressRecord ap address w with
      | (some e, w1) => ⟨some e, w1, [Event.newAddressRecord ap address (some e)]⟩
      | (none, w1) =>
        Step.after (Event.newAddressRecord ap address none)
          (refreshAddresses env sink ap rest w1)

/-- The body of the loop `for _, s := range i.IPSubnet`. -/
def refreshSubnet {σ : Type} (env : Env) (sink : addressConfigSink σ) (localSpace : addressSpace)
    (ifName : String) (priority : Int) (s : xmlIPSubnet) (w : σ) : Step σ :=
  match env.parseCIDR s.Prefix with
  | .error e => ⟨some e, w, []⟩
  | .ok subnet =>
    match sink.newAddressPool localSpace ifName priority subnet w with
    | ((ap, err), w1) =>
      if err ≠ none ∧ err ≠ some Error.errAddressExists then
        ⟨err, w1, [Event.newAddressPool localSpace ifName priority subnet ap err]⟩
      else
        Step.after (Event.newAddressPool localSpace ifName priority subnet ap err)
          (refreshAddresses env sink ap s.IPAddress w1)

/-- The loop `for _, s := range i.IPSubnet`. -/
def refreshSubnets {σ : Type} (env : Env) (sink : addressConfigSink σ) (localSpace : addressSpace)
    (ifName : String) (priority : Int) : List xmlIPSubnet → σ → Step σ
  | [], w => ⟨none, w, []⟩
  | s :: rest, w =>
    (refreshSubnet env sink localSpace ifName priority s w).seq
      (refreshSubnets env sink localSpace ifName priority rest)

/-- The loop `for _, iface := range interfaces` that finds the interface with the
matching MAC address: the name and the priority it leaves in `ifName` and
`priority`. `mac` is the lowered MAC address of the document interface. -/
def findInterface (env : Env) (mac : String) (isPrimary : Bool) :
    List NetInterface → String × Int
  | [] => ("", 0)
  | iface :: rest =>
    let macAddr := ToLower env.unicodeToLower
      (replaceColons (HardwareAddr.String iface.HardwareAddr))
    if macAddr = mac then
      -- Prioritize secondary interfaces.
      (iface.Name, if !isPrimary then 1 else 0)
    else findInterface env mac isPrimary rest

/-- The loop `for _, i := range doc.Interface`. -/
def refreshInterfaces {σ : Type} (env : Env) (sink : addressConfigSink σ) (localSpace : addressSpace)
    (interfaces : List NetInterface) : List xmlInterface → σ → Step σ
  | [], w => ⟨none, w, []⟩
  | i :: rest, w =>
    let found := findInterface env (ToLower env.unicodeToLower i.MacAddress) i.IsPrimary
      interfaces
    -- Skip if interface is not found.
    if found.1 = "" then refreshInterfaces env sink localSpace interfaces rest w
    else
      (refreshSubnets env sink localSpace found.1 found.2 i.IPSubnet w).seq
        (refreshInterfaces env sink localSpace interfaces rest)

/-- Refreshes configuration. -/
def refresh {σ : Type} (env : Env) (s : azureSource σ) (w : σ) : Outcome σ :=
  -- Refresh only if enough time has passed since the last poll.
  if timeSince env.sinceNow s.lastRefresh < s.minPollPeriod then
    ⟨Result.returned none, s, w, []⟩
  else
    let s1 : azureSource σ := { s with lastRefresh := env.now }
    -- Query the list of local interfaces.
    match env.netInterfaces with
    | .error e => ⟨Result.returned (some e), s1, w, [Event.netInterfaces]⟩
    | .ok interfaces =>
      -- Configure the local default address space.
      match s.sink with
      | none => ⟨Result.panicked, s1, w, [Event.netInterfaces]⟩
      | some sink =>
        match sink.newAddressSpace env.localDefaultAddressSpaceId env.localScope w with
        | ((localSpace, some e), w1) =>
          ⟨Result.returned (some e), s1, w1,
            [Event.netInterfaces,
             Event.newAddressSpace env.localDefaultAddressSpaceId env.localScope
               localSpace (some e)]⟩
        | ((localSpace, none), w1) =>
          let pre := [Event.netInterfaces,
            Event.newAddressSpace env.localDefaultAddressSpaceId env.localScope localSpace none,
            Event.httpGet azureQueryUrl]
          -- Fetch configuration.
          match env.httpGet azureQueryUrl with
          | .error e => ⟨Result.returned (some e), s1, w1, pre⟩
          | .ok body =>
            -- Decode XML document.
            match env.xmlDecode body with
            | .error e =>
              ⟨Result.returned (some e), s1, w1, pre ++ [Event.xmlDecode, Event.bodyClose]⟩
            | .ok doc =>
              let r := refreshInterfaces env sink localSpace interfaces doc.Interface w1
              match r.err with
              | some e =>
                ⟨Result.returned (some e), s1, r.world,
                  pre ++ Event.xmlDecode :: r.trace ++ [Event.bodyClose]⟩
              | none =>
                -- Set the local address space as active.
                ⟨Result.returned none, s1, sink.setAddressSpace localSpace r.world,
                  pre ++ Event.xmlDecode :: r.trace ++
                    [Event.setAddressSpace localSpace, Event.bodyClose]⟩

/-! ## Views of a trace -/

/-- A call on the sink without the handles involved: what is asked of the sink. -/
inductive Call where
  | space (id scope : String)
  | pool (ifName : String) (priority : Int) (subnet : IPNet)
  | record (address : IP)
  | activate
  deriving DecidableEq, Repr

/-- The sink call an event stands for, if it is one. -/
def Event.call : Event → Option Call
  | .newAddressSpace id scope _ _ => some (Call.space id scope)
  | .newAddressPool _ ifName priority subnet _ _ => some (Call.pool ifName priority subnet)
  | .newAddressRecord _ address _ => some (Call.record address)
  | .setAddressSpace _ => some Call.activate
  | _ => none

/-- The sequence of sink calls of a trace. -/
def calls (tr : List Event) : List Call := tr.filterMap Event.call

/-- The error a sink call returned that `refresh` does not recover from: any
error of `newAddressSpace` and `newAddressRecord`, and any error of
`newAddressPool` other than `errAddressExists`. -/
def Event.fatal : Event → Option Error
  | .newAddressSpace _ _ _ err => err
  | .newAddressPool _ _ _ _ _ err => if err = some Error.errAddressExists then none else err
  | .newAddressRecord _ _ err => err
  | _ => none

/-- The event is a `newAddressPool` or a `newAddressRecord` call. -/
def Event.isBuild : Event → Bool
  | .newAddressPool _ _ _ _ _ _ => true
  | .newAddressRecord _ _ _ => true
  | _ => false

/-- Every `newAddressRecord` call of the trace is made on the pool that the latest
`newAddressPool` call before it returned (`cur` when there is none in the trace). -/
def recordsOnLatestPool : Option addressPool → List Event → Bool
  | _, [] => true
  | _, .newAddressPool _ _ _ _ ret _ :: tr => recordsOnLatestPool (some ret) tr
  | cur, .newAddressRecord pool _ _ :: tr => (cur == some pool) && recordsOnLatestPool cur tr
  | cur, _ :: tr => recordsOnLatestPool cur tr

/-- Every `newAddressPool` call of the trace is made on the space `sp`. -/
def poolsOnSpace (sp : addressSpace) (tr : List Event) : Bool :=
  tr.all fun ev =>
    match ev with
    | .newAddressPool space _ _ _ _ _ => space == sp
    | _ => true

/-! ## Correlation and the expected population, in the words of the specification -/

/-- The hardware address of a local interface, normalized: colons stripped,
lowercase. -/
def normalizedHardwareAddr (env : Env) (iface : NetInterface) : String :=
  ToLower env.unicodeToLower (replaceColons (HardwareAddr.String iface.HardwareAddr))

/-- The first local interface whose normalized hardware address is `mac`. -/
def matchingInterface (env : Env) (interfaces : List NetInterface) (mac : String) :
    Option NetInterface :=
  interfaces.find? fun iface => decide (normalizedHardwareAddr env iface = mac)

/-- The priority of the pools of a document interface: 0 for the primary
interface, 1 for a secondary one. -/
def interfacePriority (i : xmlInterface) : Int := if i.IsPrimary then 0 else 1

/-- The local interface name and the priority a document interface correlates to:
those of the first local interface whose normalized hardware address is the
lowered MAC address of the document. An interface without a name counts as not
found. -/
def correlate (env : Env) (interfaces : List NetInterface) (i : xmlInterface) :
    Option (String × Int) :=
  match matchingInterface env interfaces (ToLower env.unicodeToLower i.MacAddress) with
  | some iface => if iface.Name = "" then none else some (iface.Name, interfacePriority i)
  | none => none

/-- A subnet of a correlated document interface, with the interface name and
priority of its pool. -/
structure Item where
  ifName : String
  priority : Int
  subnet : xmlIPSubnet
  deriving DecidableEq, Repr

/-- The subnets of a document interface, if it correlates. -/
def interfaceItems (env : Env) (interfaces : List NetInterface) (i : xmlInterface) : List Item :=
  match correlate env interfaces i with
  | some np => i.IPSubnet.map fun s => ⟨np.1, np.2, s⟩
  | none => []

/-- The subnets of the correlated interfaces of a document, in document order. -/
def workItems (env : Env) (interfaces : List NetInterface) (doc : xmlDocument) : List Item :=
  doc.Interface.flatMap (interfaceItems env interfaces)

/-- One record call for each non-primary address, in order. -/
def recordCalls (env : Env) (addrs : List xmlIPAddress) : List Call :=
  (addrs.filter fun a => !a.IsPrimary).map fun a => Call.record (env.parseIP a.Address)

/-- The calls for one subnet whose prefix parses: its pool, then its records. -/
def itemCalls (env : Env) (it : Item) : List Call :=
  match env.parseCIDR it.subnet.Prefix with
  | .ok subnet => Call.pool it.ifName it.priority subnet :: recordCalls env it.subnet.IPAddress
  | .error _ => []

/-- The pool and record calls for a list of subnets. -/
def expectedCalls (env : Env) (items : List Item) : List Call :=
  items.flatMap (itemCalls env)

/-- The sink calls of a refresh that fully populates the address space. -/
def populationCalls (env : Env) (interfaces : List NetInterface) (doc : xmlDocument) :
    List Call :=
  Call.space env.localDefaultAddressSpaceId env.localScope ::
    expectedCalls env (workItems env interfaces doc) ++ [Call.activate]

/-- The name, priority and network of a pool call. -/
def Call.poolKey : Call → Option (String × Int × IPNet)
  | .pool ifName priority subnet => some (ifName, priority, subnet)
  | _ => none

/-- The name, priority and network of the `newAddressPool` calls of a trace, in
the order of the calls. -/
def requestedPools (tr : List Event) : List (String × Int × IPNet) :=
  tr.filterMap fun ev =>
    match ev with
    | .newAddressPool _ ifName priority subnet _ _ => some (ifName, priority, subnet)
    | _ => none

/-- The pools of one document interface: none if no local interface matches its
lowered MAC attribute (or the match has no name); otherwise one pool for each of
its subnets whose prefix parses, under the name of the matching local interface,
with priority 0 if this document interface is primary and 1 if it is not. -/
def interfacePoolRequests (env : Env) (interfaces : List NetInterface) (i : xmlInterface) :
    List (String × Int × IPNet) :=
  match matchingInterface env interfaces (ToLower env.unicodeToLower i.MacAddress) with
  | some iface =>
    if iface.Name = "" then []
    else i.IPSubnet.filterMap fun sn =>
      match env.parseCIDR sn.Prefix with
      | .ok subnet => some (iface.Name, (if i.IsPrimary then 0 else 1), subnet)
      | .error _ => none
  | none => []

/-- The pools of a document, interface by interface in document order. -/
def poolRequests (env : Env) (interfaces : List NetInterface) (doc : xmlDocument) :
    List (String × Int × IPNet) :=
  doc.Interface.flatMap (interfacePoolRequests env interfaces)

/-- The address entries of a document, in document order. -/
def documentAddresses (doc : xmlDocument) : List xmlIPAddress :=
  doc.Interface.flatMap fun i => i.IPSubnet.flatMap fun s => s.IPAddress

/-- The parsed non-primary addresses of a list of address entries, in order. -/
def nonPrimaryAddresses (env : Env) (addrs : List xmlIPAddress) : List IP :=
  (addrs.filter fun a => !a.IsPrimary).map fun a => env.parseIP a.Address

/-- The addresses of the `newAddressRecord` calls of a trace. -/
def recordedAddresses (tr : List Event) : List IP :=
  tr.filterMap fun ev =>
    match ev with
    | .newAddressRecord _ address _ => some address
    | _ => none

/-- The loop over the subnets of the correlated interfaces, as one loop. -/
def runItems {σ : Type} (env : Env) (sink : addressConfigSink σ) (localSpace : addressSpace) :
    List Item → σ → Step σ
  | [], w => ⟨none, w, []⟩
  | it :: rest, w =>
    (refreshSubnet env sink localSpace it.ifName it.priority it.subnet w).seq
      (runItems env sink localSpace rest)

/-- The refresh reaches the construction of the pools: it is not throttled, the
local interfaces are `interfaces`, the sink is bound and returns the space
`localSpace` leaving the address manager in state `w1`, and the fetched document
decodes to `doc`. -/
def Reaches {σ : Type} (env : Env) (s : azureSource σ) (w : σ) (sink : addressConfigSink σ)
    (interfaces : List NetInterface) (localSpace : addressSpace) (w1 : σ)
    (doc : xmlDocument) : Prop :=
  ¬ timeSince env.sinceNow s.lastRefresh < s.minPollPeriod ∧
  env.netInterfaces = .ok interfaces ∧
  s.sink = some sink ∧
  sink.newAddressSpace env.localDefaultAddressSpaceId env.localScope w = ((localSpace, none), w1) ∧
  ∃ body, env.httpGet azureQueryUrl = .ok body ∧ env.xmlDecode body = .ok doc

/-- No sink call of the trace returned an error `refresh` does not recover from. -/
def clean (tr : List Event) : Prop := ∀ ev ∈ tr, ev.fatal = none

/-- The last call of the trace returned the error `e`, which `refresh` does not
recover from, and no call before it returned such an error. -/
def EndsFatal (tr : List Event) (e : Error) : Prop :=
  ∃ pre ev, tr = pre ++ [ev] ∧ clean pre ∧ ev.fatal = some e

/-- The calls `refresh` makes before it walks the document, when all succeed. -/
def preamble (env : Env) (localSpace : addressSpace) : List Event :=
  [Event.netInterfaces,
   Event.newAddressSpace env.localDefaultAddressSpaceId env.localScope localSpace none,
   Event.httpGet azureQueryUrl,
   Event.xmlDecode]

/-- The adapter after an unthrottled refresh. -/
def polled {σ : Type} (env : Env) (s : azureSource σ) : azureSource σ :=
  { s with lastRefresh := env.now }

/-- The prefix of the subnet parses as a CIDR network. -/
def Item.Parses (env : Env) (it : Item) : Prop :=
  ∃ subnet, env.parseCIDR it.subnet.Prefix = .ok subnet

/-- The sink that reports a pool that already exists as a pool just created: it
returns the same pool and nil instead of `errAddressExists`. -/
def existsAsCreated {σ : Type} (sink : addressConfigSink σ) : addressConfigSink σ :=
  { sink with
    newAddressPool := fun sp ifName priority subnet w =>
      (((sink.newAddressPool sp ifName priority subnet w).1.1,
        if (sink.newAddressPool sp ifName priority subnet w).1.2 = some Error.errAddressExists
        then none else (sink.newAddressPool sp ifName priority subnet w).1.2),
       (sink.newAddressPool sp ifName priority subnet w).2) }

/-- The loop state with every event of its trace replaced by its image. -/
def Step.mapTrace {σ : Type} (f : Event → Event) (r : Step σ) : Step σ :=
  ⟨r.err, r.world, r.trace.map f⟩

/-- The event with `errAddressExists` of a pool call replaced by nil. -/
def Event.withoutExists : Event → Event
  | .newAddressPool sp ifName priority subnet ap err =>
    .newAddressPool sp ifName priority subnet ap
      (if err = some Error.errAddressExists then none else err)
  | ev => ev

/-! ## Concrete sinks and environments -/

/-- A sink that accepts every request and numbers the handles it returns. -/
def countingSink : addressConfigSink Nat where
  newAddressSpace := fun _ _ w => ((w + 1, none), w + 1)
  newAddressPool := fun _ _ _ _ w => ((w + 1, none), w + 1)
  newAddressRecord := fun _ _ w => (none, w)
  setAddressSpace := fun _ w => w

/-- The host of the scenarios: the loopback interface and `eth0` with hardware
address `00:11:22:33:44:55`; the fetched document is `doc`. -/
def scenarioEnv (doc : xmlDocument) : Env where
  sinceNow := 63000000000000000000
  now := 63000000000000000001
  netInterfaces := .ok [⟨"lo", []⟩, ⟨"eth0", [0x00, 0x11, 0x22, 0x33, 0x44, 0x55]⟩]
  httpGet := fun _ => .ok "<Interfaces/>"
  xmlDecode := fun _ => .ok doc
  parseCIDR := fun s =>
    if s = "10.0.0.0/24" then .ok ⟨[10, 0, 0, 0], [255, 255, 255, 0]⟩
    else if s = "10.0.1.0/24" then .ok ⟨[10, 0, 1, 0], [255, 255, 255, 0]⟩
    else .error (Error.other 1)
  parseIP := fun s =>
    if s = "10.0.0.4" then [10, 0, 0, 4]
    else if s = "10.0.0.5" then [10, 0, 0, 5]
    else if s = "10.0.1.5" then [10, 0, 1, 5]
    else []
  unicodeToLower := id
  localDefaultAddressSpaceId := "LocalDefaultAddressSpace"
  localScope := "local"

/-- The document of the scenario: one primary interface with MAC attribute `mac`,
one subnet `10.0.0.0/24` with the primary address `10.0.0.4` and the
non-primary address `10.0.0.5`. -/
def scenarioDoc (mac : String) : xmlDocument :=
  ⟨[⟨mac, true, [⟨"10.0.0.0/24", [⟨"10.0.0.4", true⟩, ⟨"10.0.0.5", false⟩]⟩]⟩]⟩

/-- A sink in which every pool already exists: pool creation returns the existing
pool 9 together with `errAddressExists`. -/
def existingSink : addressConfigSink Nat where
  newAddressSpace := fun _ _ w => ((w + 1, none), w + 1)
  newAddressPool := fun _ _ _ _ w => ((9, some Error.errAddressExists), w)
  newAddressRecord := fun _ _ w => (none, w)
  setAddressSpace := fun _ w => w

/-- A sink whose pool creation fails with an error of its own. -/
def failingSink : addressConfigSink Nat where
  newAddressSpace := fun _ _ w => ((w + 1, none), w + 1)
  newAddressPool := fun _ _ _ _ w => ((0, some (Error.other 3)), w)
  newAddressRecord := fun _ _ w => (none, w)
  setAddressSpace := fun _ w => w

/-- A sink that refuses every address record. -/
def refusingSink : addressConfigSink Nat where
  newAddressSpace := fun _ _ w => ((w + 1, none), w + 1)
  newAddressPool := fun _ _ _ _ w => ((w + 1, none), w + 1)
  newAddressRecord := fun _ _ w => (some (Error.other 7), w)
  setAddressSpace := fun _ w => w

/-- A sink that refuses to record the nil address, and accepts everything else. -/
def strictSink : addressConfigSink Nat where
  newAddressSpace := fun _ _ w => ((w + 1, none), w + 1)
  newAddressPool := fun _ _ _ _ w => ((w + 1, none), w + 1)
  newAddressRecord := fun _ ip w => if ip = [] then (some (Error.other 5), w) else (none, w)
  setAddressSpace := fun _ w => w

/-- A document whose second subnet has the prefix `10.0.1.0/33`, which is not a
CIDR network; the third subnet is valid again. -/
def invalidSubnetDoc : xmlDocument :=
  ⟨[⟨"001122334455", false,
      [⟨"10.0.0.0/24", [⟨"10.0.0.5", false⟩]⟩,
       ⟨"10.0.1.0/33", [⟨"10.0.1.5", false⟩]⟩,
       ⟨"10.0.1.0/24", [⟨"10.0.1.5", false⟩]⟩]⟩]⟩

/-- A document whose only non-primary address is the text `10.0.0.256`, which is
not an IP address; the non-primary address `10.0.0.5` follows it. -/
def invalidAddressDoc : xmlDocument :=
  ⟨[⟨"001122334455", true,
      [⟨"10.0.0.0/24", [⟨"10.0.0.256", false⟩, ⟨"10.0.0.5", false⟩]⟩]⟩]⟩

/-- A document that names the MAC of `eth0` twice, first as the primary interface
and then as a secondary one, each time with the subnet `10.0.0.0/24`. -/
def duplicateMacDoc : xmlDocument :=
  ⟨[⟨"001122334455", true, [⟨"10.0.0.0/24", [⟨"10.0.0.5", false⟩]⟩]⟩,
    ⟨"001122334455", false, [⟨"10.0.0.0/24", [⟨"10.0.0.5", false⟩]⟩]⟩]⟩

/-- A started adapter with the default poll period that has never refreshed. -/
def startedSource {σ : Type} (sink : addressConfigSink σ) : azureSource σ :=
  (start (newAzureSource σ).1 sink).1

/-! # Properties -/

/-! ## Sequencing of loops -/

section Loops

variable {σ : Type}

theorem Step.seq_of_err {r : Step σ} {k : σ → Step σ} {e : Error} (h : r.err = some e) :
    r.seq k = ⟨some e, r.world, r.trace⟩ := by
  simp [Step.seq, h]

theorem Step.seq_of_ok {r : Step σ} {k : σ → Step σ} (h : r.err = none) :
    r.seq k = ⟨(k r.world).err, (k r.world).world, r.trace ++ (k r.world).trace⟩ := by
  simp [Step.seq, h]

theorem Step.seq_assoc (r : Step σ) (k k2 : σ → Step σ) :
    (r.seq k).seq k2 = r.seq fun w => (k w).seq k2 := by
  cases h : r.err with
  | some e => simp [Step.seq, h]
  | none =>
    cases h2 : (k r.world).err with
    | some e2 => simp [Step.seq, h, h2]
    | none => simp [Step.seq, h, h2]

theorem runItems_append (env : Env) (sink : addressConfigSink σ) (sp : addressSpace)
    (xs ys : List Item) (w : σ) :
    runItems env sink sp (xs ++ ys) w =
      (runItems env sink sp xs w).seq (runItems env sink sp ys) := by
  induction xs generalizing w with
  | nil => simp [runItems, Step.seq]
  | cons x xs ih =>
    simp only [List.cons_append, runItems, Step.seq_assoc]
    congr 1
    funext w1
    exact ih w1

theorem refreshSubnets_eq_runItems (env : Env) (sink : addressConfigSink σ) (sp : addressSpace)
    (ifName : String) (priority : Int) (sns : List xmlIPSubnet) (w : σ) :
    refreshSubnets env sink sp ifName priority sns w =
      runItems env sink sp (sns.map fun s => ⟨ifName, priority, s⟩) w := by
  induction sns generalizing w with
  | nil => simp [refreshSubnets, runItems]
  | cons s sns ih =>
    simp only [refreshSubnets, List.map_cons, runItems]
    congr 1
    funext w1
    exact ih w1

theorem findInterface_eq (env : Env) (mac : String) (isPrimary : Bool)
    (interfaces : List NetInterface) :
    findInterface env mac isPrimary interfaces =
      match matchingInterface env interfaces mac with
      | some iface => (iface.Name, if isPrimary then 0 else 1)
      | none => ("", 0) := by
  induction interfaces with
  | nil => simp [findInterface, matchingInterface]
  | cons iface rest ih =>
    by_cases h : normalizedHardwareAddr env iface = mac
    · cases isPrimary <;>
        simp [findInterface, matchingInterface, List.find?, h, normalizedHardwareAddr] at *
      all_goals simp [← h, normalizedHardwareAddr]
    · simp only [findInterface, matchingInterface, List.find?] at *
      simp only [normalizedHardwareAddr] at h
      simp [h, ih, normalizedHardwareAddr]

theorem refreshInterfaces_eq_runItems (env : Env) (sink : addressConfigSink σ)
    (sp : addressSpace) (interfaces : List NetInterface) (is : List xmlInterface) (w : σ) :
    refreshInterfaces env sink sp interfaces is w =
      runItems env sink sp (is.flatMap (interfaceItems env interfaces)) w := by
  induction is generalizing w with
  | nil => simp [refreshInterfaces, runItems]
  | cons i is ih =>
    simp only [refreshInterfaces, List.flatMap_cons, runItems_append]
    rw [findInterface_eq]
    cases hm : matchingInterface env interfaces (ToLower env.unicodeToLower i.MacAddress) with
    | none =>
      simp [interfaceItems, correlate, hm, runItems, Step.seq, ih]
    | some iface =>
      by_cases hn : iface.Name = ""
      · simp [interfaceItems, correlate, hm, hn, runItems, Step.seq, ih]
      · simp only [hn, if_false, interfaceItems, correlate, hm, refreshSubnets_eq_runItems,
          interfacePriority]
        congr 1
        funext w1
        exact ih w1

end Loops

section Calls

variable {σ : Type}

theorem refreshAddresses_primary (env : Env) (sink : addressConfigSink σ) (ap : addressPool)
    (a : xmlIPAddress) (rest : List xmlIPAddress) (w : σ) (hp : a.IsPrimary = true) :
    refreshAddresses env sink ap (a :: rest) w = refreshAddresses env sink ap rest w := by
  simp [refreshAddresses, hp]

theorem refreshAddresses_rejected (env : Env) (sink : addressConfigSink σ) (ap : addressPool)
    (a : xmlIPAddress) (rest : List xmlIPAddress) (w w1 : σ) (e : Error)
    (hp : a.IsPrimary = false)
    (hs : sink.newAddressRecord ap (env.parseIP a.Address) w = (some e, w1)) :
    refreshAddresses env sink ap (a :: rest) w =
      ⟨some e, w1, [Event.newAddressRecord ap (env.parseIP a.Address) (some e)]⟩ := by
  simp [refreshAddresses, hp, hs]

theorem refreshAddresses_recorded (env : Env) (sink : addressConfigSink σ) (ap : addressPool)
    (a : xmlIPAddress) (rest : List xmlIPAddress) (w w1 : σ)
    (hp : a.IsPrimary = false)
    (hs : sink.newAddressRecord ap (env.parseIP a.Address) w = (none, w1)) :
    refreshAddresses env sink ap (a :: rest) w =
      Step.after (Event.newAddressRecord ap (env.parseIP a.Address) none)
        (refreshAddresses env sink ap rest w1) := by
  simp [refreshAddresses, hp, hs]

theorem refreshSubnet_invalid (env : Env) (sink : addressConfigSink σ) (sp : addressSpace)
    (ifName : String) (priority : Int) (s : xmlIPSubnet) (w : σ) (e : Error)
    (hc : env.parseCIDR s.Prefix = .error e) :
    refreshSubnet env sink sp ifName priority s w = ⟨some e, w, []⟩ := by
  simp [refreshSubnet, hc]

theorem refreshSubnet_failed (env : Env) (sink : addressConfigSink σ) (sp : addressSpace)
    (ifName : String) (priority : Int) (s : xmlIPSubnet) (w w1 : σ) (subnet : IPNet)
    (ap : addressPool) (e : Error)
    (hc : env.parseCIDR s.Prefix = .ok subnet)
    (hs : sink.newAddressPool sp ifName priority subnet w = ((ap, some e), w1))
    (he : e ≠ Error.errAddressExists) :
    refreshSubnet env sink sp ifName priority s w =
      ⟨some e, w1, [Event.newAddressPool sp ifName priority subnet ap (some e)]⟩ := by
  simp [refreshSubnet, hc, hs, he]

theorem refreshSubnet_pooled (env : Env) (sink : addressConfigSink σ) (sp : addressSpace)
    (ifName : String) (priority : Int) (s : xmlIPSubnet) (w w1 : σ) (subnet : IPNet)
    (ap : addressPool) (err : Option Error)
    (hc : env.parseCIDR s.Prefix = .ok subnet)
    (hs : sink.newAddressPool sp ifName priority subnet w = ((ap, err), w1))
    (he : err = none ∨ err = some Error.errAddressExists) :
    refreshSubnet env sink sp ifName priority s w =
      Step.after (Event.newAddressPool sp ifName priority subnet ap err)
        (refreshAddresses env sink ap s.IPAddress w1) := by
  rcases he with rfl | rfl <;> simp [refreshSubnet, hc, hs]

/-- The three ways the body of the subnet loop goes. -/
theorem refreshSubnet_cases (env : Env) (sink : addressConfigSink σ) (sp : addressSpace)
    (ifName : String) (priority : Int) (s : xmlIPSubnet) (w : σ) :
    (∃ e, env.parseCIDR s.Prefix = .error e ∧
      refreshSubnet env sink sp ifName priority s w = ⟨some e, w, []⟩) ∨
    (∃ subnet ap e w1, env.parseCIDR s.Prefix = .ok subnet ∧
      sink.newAddressPool sp ifName priority subnet w = ((ap, some e), w1) ∧
      e ≠ Error.errAddressExists ∧
      refreshSubnet env sink sp ifName priority s w =
        ⟨some e, w1, [Event.newAddressPool sp ifName priority subnet ap (some e)]⟩) ∨
    (∃ subnet ap err w1, env.parseCIDR s.Prefix = .ok subnet ∧
      sink.newAddressPool sp ifName priority subnet w = ((ap, err), w1) ∧
      (err = none ∨ err = some Error.errAddressExists) ∧
      refreshSubnet env sink sp ifName priority s w =
        Step.after (Event.newAddressPool sp ifName priority subnet ap err)
          (refreshAddresses env sink ap s.IPAddress w1)) := by
  cases hc : env.parseCIDR s.Prefix with
  | error e => exact Or.inl ⟨e, rfl, refreshSubnet_invalid env sink sp ifName priority s w e hc⟩
  | ok subnet =>
    rcases hs : sink.newAddressPool sp ifName priority subnet w with ⟨⟨ap, err⟩, w1⟩
    cases err with
    | none =>
      exact Or.inr (Or.inr ⟨subnet, ap, none, w1, rfl, hs, Or.inl rfl,
        refreshSubnet_pooled env sink sp ifName priority s w w1 subnet ap none hc hs (Or.inl rfl)⟩)
    | some e =>
      by_cases he : e = Error.errAddressExists
      · subst he
        exact Or.inr (Or.inr ⟨subnet, ap, _, w1, rfl, hs, Or.inr rfl,
          refreshSubnet_pooled env sink sp ifName priority s w w1 subnet ap _ hc hs (Or.inr rfl)⟩)
      · exact Or.inr (Or.inl ⟨subnet, ap, e, w1, rfl, hs, he,
          refreshSubnet_failed env sink sp ifName priority s w w1 subnet ap e hc hs he⟩)

/-- The three ways the address loop goes on a non-empty list. -/
theorem refreshAddresses_cases (env : Env) (sink : addressConfigSink σ) (ap : addressPool)
    (a : xmlIPAddress) (rest : List xmlIPAddress) (w : σ) :
    (a.IsPrimary = true ∧
      refreshAddresses env sink ap (a :: rest) w = refreshAddresses env sink ap rest w) ∨
    (∃ e w1, a.IsPrimary = false ∧
      sink.newAddressRecord ap (env.parseIP a.Address) w = (some e, w1) ∧
      refreshAddresses env sink ap (a :: rest) w =
        ⟨some e, w1, [Event.newAddressRecord ap (env.parseIP a.Address) (some e)]⟩) ∨
    (∃ w1, a.IsPrimary = false ∧
      sink.newAddressRecord ap (env.parseIP a.Address) w = (none, w1) ∧
      refreshAddresses env sink ap (a :: rest) w =
        Step.after (Event.newAddressRecord ap (env.parseIP a.Address) none)
          (refreshAddresses env sink ap rest w1)) := by
  by_cases hp : a.IsPrimary = true
  · exact Or.inl ⟨hp, refreshAddresses_primary env sink ap a rest w hp⟩
  · have hp2 : a.IsPrimary = false := by simpa using hp
    rcases hs : sink.newAddressRecord ap (env.parseIP a.Address) w with ⟨_ | e, w1⟩
    · exact Or.inr (Or.inr ⟨w1, hp2, rfl,
        refreshAddresses_recorded env sink ap a rest w w1 hp2 hs⟩)
    · exact Or.inr (Or.inl ⟨e, w1, hp2, rfl,
        refreshAddresses_rejected env sink ap a rest w w1 e hp2 hs⟩)

theorem calls_cons_record (ap : addressPool) (ip : IP) (err : Option Error) (tr : List Event) :
    calls (Event.newAddressRecord ap ip err :: tr) = Call.record ip :: calls tr := by
  simp [calls, Event.call]

theorem calls_cons_pool (sp : addressSpace) (n : String) (p : Int) (net : IPNet)
    (ap : addressPool) (err : Option Error) (tr : List Event) :
    calls (Event.newAddressPool sp n p net ap err :: tr) = Call.pool n p net :: calls tr := by
  simp [calls, Event.call]

theorem calls_append (t1 t2 : List Event) : calls (t1 ++ t2) = calls t1 ++ calls t2 := by
  simp [calls]

theorem recordCalls_cons_primary (env : Env) (a : xmlIPAddress) (rest : List xmlIPAddress)
    (h : a.IsPrimary = true) : recordCalls env (a :: rest) = recordCalls env rest := by
  simp [recordCalls, h]

theorem recordCalls_cons_secondary (env : Env) (a : xmlIPAddress) (rest : List xmlIPAddress)
    (h : a.IsPrimary = false) :
    recordCalls env (a :: rest) = Call.record (env.parseIP a.Address) :: recordCalls env rest := by
  simp [recordCalls, h]

/-- The record calls of the address loop are an initial segment of the calls for
the non-primary addresses, and all of them when the loop ends without error. -/
theorem refreshAddresses_calls (env : Env) (sink : addressConfigSink σ) (ap : addressPool)
    (addrs : List xmlIPAddress) (w : σ) :
    calls (refreshAddresses env sink ap addrs w).trace <+: recordCalls env addrs ∧
    ((refreshAddresses env sink ap addrs w).err = none →
      calls (refreshAddresses env sink ap addrs w).trace = recordCalls env addrs) := by
  induction addrs generalizing w with
  | nil => simp [refreshAddresses, recordCalls, calls]
  | cons a rest ih =>
    rcases refreshAddresses_cases env sink ap a rest w with
      ⟨hp, h⟩ | ⟨e, w1, hp, -, h⟩ | ⟨w1, hp, -, h⟩
    · rw [h, recordCalls_cons_primary env a rest hp]
      exact ih w
    · rw [h, recordCalls_cons_secondary env a rest hp]
      simp only [calls_cons_record]
      refine ⟨(List.prefix_cons_inj _).2 ?_, fun h => ?_⟩
      · simp [calls]
      · simp at h
    · rw [h, recordCalls_cons_secondary env a rest hp]
      simp only [Step.after, calls_cons_record]
      refine ⟨(List.prefix_cons_inj _).2 (ih w1).1, fun h => ?_⟩
      rw [(ih w1).2 h]

theorem refreshSubnet_calls (env : Env) (sink : addressConfigSink σ) (sp : addressSpace)
    (it : Item) (w : σ) :
    calls (refreshSubnet env sink sp it.ifName it.priority it.subnet w).trace <+:
      itemCalls env it ∧
    ((refreshSubnet env sink sp it.ifName it.priority it.subnet w).err = none →
      calls (refreshSubnet env sink sp it.ifName it.priority it.subnet w).trace =
        itemCalls env it ∧ it.Parses env) := by
  rcases refreshSubnet_cases env sink sp it.ifName it.priority it.subnet w with
    ⟨e, hc, h⟩ | ⟨subnet, ap, e, w1, hc, -, -, h⟩ | ⟨subnet, ap, err, w1, hc, -, -, h⟩
  · rw [h]
    simp [calls]
  · rw [h]
    simp only [itemCalls, hc, calls_cons_pool]
    refine ⟨(List.prefix_cons_inj _).2 (by simp [calls]), fun h2 => ?_⟩
    simp at h2
  · rw [h]
    simp only [itemCalls, hc, Step.after, calls_cons_pool]
    have := refreshAddresses_calls env sink ap it.subnet.IPAddress w1
    refine ⟨(List.prefix_cons_inj _).2 this.1, fun h2 => ⟨?_, ⟨subnet, hc⟩⟩⟩
    rw [this.2 h2]

/-- The pool and record calls of the walk over the document are an initial segment
of the expected calls, and all of them, with every prefix parsing, when the walk
ends without error. -/
theorem runItems_calls (env : Env) (sink : addressConfigSink σ) (sp : addressSpace)
    (items : List Item) (w : σ) :
    calls (runItems env sink sp items w).trace <+: expectedCalls env items ∧
    ((runItems env sink sp items w).err = none →
      calls (runItems env sink sp items w).trace = expectedCalls env items ∧
        ∀ it ∈ items, it.Parses env) := by
  induction items generalizing w with
  | nil => simp [runItems, expectedCalls, calls]
  | cons it rest ih =>
    have hit := refreshSubnet_calls env sink sp it w
    simp only [runItems, expectedCalls, List.flatMap_cons]
    cases hr : (refreshSubnet env sink sp it.ifName it.priority it.subnet w).err with
    | some e =>
      rw [Step.seq_of_err hr]
      refine ⟨hit.1.trans (List.prefix_append _ _), fun h => ?_⟩
      simp at h
    | none =>
      rw [Step.seq_of_ok hr]
      obtain ⟨h1, h2⟩ := hit.2 hr
      have hrest := ih (refreshSubnet env sink sp it.ifName it.priority it.subnet w).world
      simp only [calls_append, h1]
      refine ⟨(List.prefix_append_right_inj _).2 hrest.1, fun h => ?_⟩
      obtain ⟨h3, h4⟩ := hrest.2 h
      refine ⟨by rw [h3]; rfl, ?_⟩
      intro x hx
      rcases List.mem_cons.1 hx with rfl | hx
      · exact h2
      · exact h4 x hx

/-! ### Errors -/

theorem clean_nil : clean [] := by simp [clean]

theorem clean_append {t1 t2 : List Event} : clean (t1 ++ t2) ↔ clean t1 ∧ clean t2 := by
  simp only [clean, List.mem_append]
  constructor
  · intro h
    exact ⟨fun ev hev => h ev (Or.inl hev), fun ev hev => h ev (Or.inr hev)⟩
  · rintro ⟨h1, h2⟩ ev (hev | hev)
    · exact h1 ev hev
    · exact h2 ev hev

theorem clean_cons {ev : Event} {tr : List Event} :
    clean (ev :: tr) ↔ ev.fatal = none ∧ clean tr := by
  simp [clean]

theorem EndsFatal.cons {ev : Event} {tr : List Event} {e : Error} (hev : ev.fatal = none)
    (h : EndsFatal tr e) : EndsFatal (ev :: tr) e := by
  obtain ⟨pre, last, rfl, hpre, hlast⟩ := h
  exact ⟨ev :: pre, last, rfl, clean_cons.2 ⟨hev, hpre⟩, hlast⟩

theorem EndsFatal.append {t1 t2 : List Event} {e : Error} (h1 : clean t1)
    (h : EndsFatal t2 e) : EndsFatal (t1 ++ t2) e := by
  obtain ⟨pre, last, rfl, hpre, hlast⟩ := h
  exact ⟨t1 ++ pre, last, by simp, clean_append.2 ⟨h1, hpre⟩, hlast⟩

theorem EndsFatal.single {ev : Event} {e : Error} (h : ev.fatal = some e) :
    EndsFatal [ev] e :=
  ⟨[], ev, rfl, clean_nil, h⟩

/-- A call that returned an error `refresh` does not recover from is the last
call of a trace that ends with such an error. -/
theorem EndsFatal.last {tr : List Event} {e e2 : Error} {pre post : List Event} {ev : Event}
    (h : EndsFatal tr e) (htr : tr = pre ++ ev :: post) (hev : ev.fatal = some e2) :
    post = [] ∧ e2 = e := by
  obtain ⟨pre2, last, rfl, hpre, hlast⟩ := h
  rcases List.eq_nil_or_concat post with rfl | ⟨q, x, rfl⟩
  · have := List.append_inj' htr rfl
    obtain ⟨-, h2⟩ := this
    simp only [List.cons.injEq, and_true] at h2
    subst h2
    rw [hev] at hlast
    exact ⟨rfl, by simpa using hlast⟩
  · have h3 : pre2 ++ [last] = (pre ++ ev :: q) ++ [x] := by simpa using htr
    have := (List.append_inj' h3 rfl).1
    have hmem : ev ∈ pre2 := by rw [this]; simp
    have := hpre ev hmem
    rw [hev] at this
    cases this

theorem refreshAddresses_fatal (env : Env) (sink : addressConfigSink σ) (ap : addressPool)
    (addrs : List xmlIPAddress) (w : σ) :
    match (refreshAddresses env sink ap addrs w).err with
    | none => clean (refreshAddresses env sink ap addrs w).trace
    | some e => EndsFatal (refreshAddresses env sink ap addrs w).trace e := by
  induction addrs generalizing w with
  | nil => simp [refreshAddresses, clean]
  | cons a rest ih =>
    rcases refreshAddresses_cases env sink ap a rest w with
      ⟨hp, h⟩ | ⟨e, w1, hp, -, h⟩ | ⟨w1, hp, -, h⟩
    · rw [h]
      exact ih w
    · rw [h]
      exact EndsFatal.single rfl
    · rw [h]
      simp only [Step.after]
      have := ih w1
      cases hr : (refreshAddresses env sink ap rest w1).err with
      | none =>
        rw [hr] at this
        exact clean_cons.2 ⟨rfl, this⟩
      | some e =>
        rw [hr] at this
        exact EndsFatal.cons rfl this

theorem refreshSubnet_fatal (env : Env) (sink : addressConfigSink σ) (sp : addressSpace)
    (it : Item) (w : σ) :
    match (refreshSubnet env sink sp it.ifName it.priority it.subnet w).err with
    | none => clean (refreshSubnet env sink sp it.ifName it.priority it.subnet w).trace
    | some e =>
      EndsFatal (refreshSubnet env sink sp it.ifName it.priority it.subnet w).trace e ∨
      ((refreshSubnet env sink sp it.ifName it.priority it.subnet w).trace = [] ∧
        (refreshSubnet env sink sp it.ifName it.priority it.subnet w).world = w ∧
        env.parseCIDR it.subnet.Prefix = .error e) := by
  rcases refreshSubnet_cases env sink sp it.ifName it.priority it.subnet w with
    ⟨e, hc, h⟩ | ⟨subnet, ap, e, w1, hc, -, he, h⟩ | ⟨subnet, ap, err, w1, hc, -, he, h⟩
  · rw [h]
    exact Or.inr ⟨rfl, rfl, hc⟩
  · rw [h]
    refine Or.inl (EndsFatal.single ?_)
    simp [Event.fatal, he]
  · rw [h]
    have hev : (Event.newAddressPool sp it.ifName it.priority subnet ap err).fatal = none := by
      rcases he with rfl | rfl <;> simp [Event.fatal]
    have := refreshAddresses_fatal env sink ap it.subnet.IPAddress w1
    simp only [Step.after]
    cases hr : (refreshAddresses env sink ap it.subnet.IPAddress w1).err with
    | none =>
      rw [hr] at this
      exact clean_cons.2 ⟨hev, this⟩
    | some e =>
      rw [hr] at this
      exact Or.inl (EndsFatal.cons hev this)

end Calls

section Traces

variable {σ : Type}

theorem Step.mem_seq_trace {r : Step σ} {k : σ → Step σ} {ev : Event}
    (h : ev ∈ (r.seq k).trace) : ev ∈ r.trace ∨ ev ∈ (k r.world).trace := by
  cases hr : r.err with
  | some e => rw [Step.seq_of_err hr] at h; exact Or.inl h
  | none => rw [Step.seq_of_ok hr] at h; simpa using h

/-- Every call of the address loop is a record call on the pool of the loop, for a
non-primary address of the list, and records what the sink returned. -/
theorem refreshAddresses_events (env : Env) (sink : addressConfigSink σ) (ap : addressPool)
    (addrs : List xmlIPAddress) (w : σ) :
    ∀ ev ∈ (refreshAddresses env sink ap addrs w).trace,
      ∃ a ∈ addrs, a.IsPrimary = false ∧
        ∃ err w0 w1, sink.newAddressRecord ap (env.parseIP a.Address) w0 = (err, w1) ∧
          ev = Event.newAddressRecord ap (env.parseIP a.Address) err := by
  induction addrs generalizing w with
  | nil => simp [refreshAddresses]
  | cons a rest ih =>
    intro ev hev
    rcases refreshAddresses_cases env sink ap a rest w with
      ⟨hp, h⟩ | ⟨e, w1, hp, hs, h⟩ | ⟨w1, hp, hs, h⟩
    · rw [h] at hev
      obtain ⟨b, hb, hb2⟩ := ih w ev hev
      exact ⟨b, List.mem_cons_of_mem _ hb, hb2⟩
    · rw [h] at hev
      exact ⟨a, List.mem_cons_self _ _, hp, some e, w, w1, hs, by simpa using hev⟩
    · rw [h] at hev
      simp only [Step.after] at hev
      rcases List.mem_cons.1 hev with h2 | h2
      · exact ⟨a, List.mem_cons_self _ _, hp, none, w, w1, hs, h2⟩
      · obtain ⟨b, hb, hb2⟩ := ih w1 ev h2
        exact ⟨b, List.mem_cons_of_mem _ hb, hb2⟩

/-- Every call made for a subnet is its pool call on the local space or a record
call for one of its non-primary addresses. -/
theorem refreshSubnet_events (env : Env) (sink : addressConfigSink σ) (sp : addressSpace)
    (ifName : String) (priority : Int) (s : xmlIPSubnet) (w : σ) :
    ∀ ev ∈ (refreshSubnet env sink sp ifName priority s w).trace,
      (∃ subnet ap err w0 w1, env.parseCIDR s.Prefix = .ok subnet ∧
        sink.newAddressPool sp ifName priority subnet w0 = ((ap, err), w1) ∧
        ev = Event.newAddressPool sp ifName priority subnet ap err) ∨
      (∃ a ∈ s.IPAddress, a.IsPrimary = false ∧
        ∃ ap err w0 w1, sink.newAddressRecord ap (env.parseIP a.Address) w0 = (err, w1) ∧
          ev = Event.newAddressRecord ap (env.parseIP a.Address) err) := by
  intro ev hev
  rcases refreshSubnet_cases env sink sp ifName priority s w with
    ⟨e, hc, h⟩ | ⟨subnet, ap, e, w1, hc, hs, -, h⟩ | ⟨subnet, ap, err, w1, hc, hs, -, h⟩
  · rw [h] at hev
    simp at hev
  · rw [h] at hev
    exact Or.inl ⟨subnet, ap, some e, w, w1, hc, hs, by simpa using hev⟩
  · rw [h] at hev
    simp only [Step.after] at hev
    rcases List.mem_cons.1 hev with h2 | h2
    · exact Or.inl ⟨subnet, ap, err, w, w1, hc, hs, h2⟩
    · obtain ⟨a, ha, hp, err2, w0, w2, hs2, h3⟩ :=
        refreshAddresses_events env sink ap _ w1 ev h2
      exact Or.inr ⟨a, ha, hp, ap, err2, w0, w2, hs2, h3⟩

/-- Every call of the walk over the document is the pool call of one of the
subnets or a record call for a non-primary address of one of them. -/
theorem runItems_events (env : Env) (sink : addressConfigSink σ) (sp : addressSpace)
    (items : List Item) (w : σ) :
    ∀ ev ∈ (runItems env sink sp items w).trace,
      ∃ it ∈ items,
        (∃ subnet ap err w0 w1, env.parseCIDR it.subnet.Prefix = .ok subnet ∧
          sink.newAddressPool sp it.ifName it.priority subnet w0 = ((ap, err), w1) ∧
          ev = Event.newAddressPool sp it.ifName it.priority subnet ap err) ∨
        (∃ a ∈ it.subnet.IPAddress, a.IsPrimary = false ∧
          ∃ ap err w0 w1, sink.newAddressRecord ap (env.parseIP a.Address) w0 = (err, w1) ∧
            ev = Event.newAddressRecord ap (env.parseIP a.Address) err) := by
  induction items generalizing w with
  | nil => simp [runItems]
  | cons it rest ih =>
    intro ev hev
    simp only [runItems] at hev
    rcases Step.mem_seq_trace hev with h | h
    · exact ⟨it, List.mem_cons_self _ _, refreshSubnet_events env sink sp _ _ _ w ev h⟩
    · obtain ⟨it2, hit, h2⟩ := ih _ ev h
      exact ⟨it2, List.mem_cons_of_mem _ hit, h2⟩

theorem runItems_isBuild (env : Env) (sink : addressConfigSink σ) (sp : addressSpace)
    (items : List Item) (w : σ) :
    ∀ ev ∈ (runItems env sink sp items w).trace, ev.isBuild = true := by
  intro ev hev
  obtain ⟨it, -, h | h⟩ := runItems_events env sink sp items w ev hev
  · obtain ⟨subnet, ap, err, w0, w1, -, -, rfl⟩ := h
    rfl
  · obtain ⟨a, -, -, ap, err, w0, w1, -, rfl⟩ := h
    rfl

theorem runItems_poolsOnSpace (env : Env) (sink : addressConfigSink σ) (sp : addressSpace)
    (items : List Item) (w : σ) :
    poolsOnSpace sp (runItems env sink sp items w).trace = true := by
  simp only [poolsOnSpace, List.all_eq_true]
  intro ev hev
  obtain ⟨it, -, h | h⟩ := runItems_events env sink sp items w ev hev
  · obtain ⟨subnet, ap, err, w0, w1, -, -, rfl⟩ := h
    simp
  · obtain ⟨a, -, -, ap, err, w0, w1, -, rfl⟩ := h
    simp

/-- A sink whose pool creation reports at most `errAddressExists` and whose record
creation never fails leaves no unrecovered error in the trace. -/
theorem runItems_clean (env : Env) (sink : addressConfigSink σ) (sp : addressSpace)
    (items : List Item) (w : σ)
    (hpool : ∀ sp n p net w0, (sink.newAddressPool sp n p net w0).1.2 = none ∨
      (sink.newAddressPool sp n p net w0).1.2 = some Error.errAddressExists)
    (hrec : ∀ ap ip w0, (sink.newAddressRecord ap ip w0).1 = none) :
    clean (runItems env sink sp items w).trace := by
  intro ev hev
  obtain ⟨it, -, h | h⟩ := runItems_events env sink sp items w ev hev
  · obtain ⟨subnet, ap, err, w0, w1, -, hs, rfl⟩ := h
    have := hpool sp it.ifName it.priority subnet w0
    rw [hs] at this
    rcases this with h2 | h2 <;> simp at h2 <;> simp [Event.fatal, h2]
  · obtain ⟨a, -, -, ap, err, w0, w1, hs, rfl⟩ := h
    have := hrec ap (env.parseIP a.Address) w0
    rw [hs] at this
    simpa [Event.fatal] using this

end Traces

section Walk

variable {σ : Type}

theorem EndsFatal.not_clean {tr : List Event} {e : Error} (h : EndsFatal tr e)
    (hc : clean tr) : False := by
  obtain ⟨pre, last, rfl, -, hlast⟩ := h
  have := hc last (by simp)
  rw [hlast] at this
  cases this

/-- How the walk over the document ends: without error and without an unrecovered
sink error in the trace; or with the error of its last sink call; or with the
parse error of the first subnet whose prefix does not parse, after the calls for
the subnets before it. -/
theorem runItems_fatal (env : Env) (sink : addressConfigSink σ) (sp : addressSpace)
    (items : List Item) (w : σ) :
    match (runItems env sink sp items w).err with
    | none => clean (runItems env sink sp items w).trace
    | some e =>
      EndsFatal (runItems env sink sp items w).trace e ∨
      (clean (runItems env sink sp items w).trace ∧
        ∃ good bad rest, items = good ++ bad :: rest ∧ (∀ g ∈ good, g.Parses env) ∧
          env.parseCIDR bad.subnet.Prefix = .error e ∧
          (runItems env sink sp good w).err = none ∧
          (runItems env sink sp good w).trace = (runItems env sink sp items w).trace ∧
          (runItems env sink sp good w).world = (runItems env sink sp items w).world) := by
  induction items generalizing w with
  | nil => simp [runItems, clean]
  | cons it rest ih =>
    have hit := refreshSubnet_fatal env sink sp it w
    have hcalls := refreshSubnet_calls env sink sp it w
    simp only [runItems]
    cases hr : (refreshSubnet env sink sp it.ifName it.priority it.subnet w).err with
    | some e =>
      rw [hr] at hit
      rw [Step.seq_of_err hr]
      rcases hit with h | ⟨h1, h2, h3⟩
      · exact Or.inl h
      · refine Or.inr ⟨by rw [h1]; exact clean_nil, [], it, rest, rfl, by simp, h3, ?_⟩
        simp [runItems, h1, h2]
    | none =>
      rw [hr] at hit
      rw [Step.seq_of_ok hr]
      have hrest := ih (refreshSubnet env sink sp it.ifName it.priority it.subnet w).world
      cases hr2 : (runItems env sink sp rest
          (refreshSubnet env sink sp it.ifName it.priority it.subnet w).world).err with
      | none =>
        rw [hr2] at hrest
        exact clean_append.2 ⟨hit, hrest⟩
      | some e =>
        rw [hr2] at hrest
        rcases hrest with h | ⟨h1, good, bad, rest2, h2, h3, h4, h5, h6, h7⟩
        · exact Or.inl (EndsFatal.append hit h)
        · refine Or.inr ⟨clean_append.2 ⟨hit, h1⟩, it :: good, bad, rest2, by simp [h2], ?_, h4, ?_⟩
          · intro g hg
            rcases List.mem_cons.1 hg with rfl | hg
            · exact (hcalls.2 hr).2
            · exact h3 g hg
          · simp only [runItems, Step.seq_of_ok hr, h5, h6, h7]
            simp

/-- When every prefix parses and no sink call of the walk returned an unrecovered
error, the walk ends without error. -/
theorem runItems_ok (env : Env) (sink : addressConfigSink σ) (sp : addressSpace)
    (items : List Item) (w : σ) (hparse : ∀ it ∈ items, it.Parses env)
    (hclean : clean (runItems env sink sp items w).trace) :
    (runItems env sink sp items w).err = none := by
  have := runItems_fatal env sink sp items w
  cases hr : (runItems env sink sp items w).err with
  | none => rfl
  | some e =>
    rw [hr] at this
    rcases this with h | ⟨-, good, bad, rest, h2, -, h4, -⟩
    · exact (h.not_clean hclean).elim
    · obtain ⟨subnet, hs⟩ := hparse bad (by rw [h2]; simp)
      rw [hs] at h4
      cases h4

/-- A subnet whose prefix does not parse ends the walk with the parse error,
unless the walk over the subnets before it already ended with an error. -/
theorem runItems_invalid (env : Env) (sink : addressConfigSink σ) (sp : addressSpace)
    (good rest : List Item) (bad : Item) (w : σ) (e : Error)
    (hbad : env.parseCIDR bad.subnet.Prefix = .error e) :
    runItems env sink sp (good ++ bad :: rest) w =
      (runItems env sink sp good w).seq fun w1 => ⟨some e, w1, []⟩ := by
  rw [runItems_append]
  congr 1
  funext w1
  simp [runItems, refreshSubnet_invalid env sink sp _ _ _ w1 e hbad, Step.seq]

/-! ### Records go to the latest pool -/

theorem recordsOnLatestPool_addresses (env : Env) (sink : addressConfigSink σ)
    (ap : addressPool) (addrs : List xmlIPAddress) (w : σ) (tail : List Event)
    (htail : recordsOnLatestPool (some ap) tail = true) :
    recordsOnLatestPool (some ap) ((refreshAddresses env sink ap addrs w).trace ++ tail) =
      true := by
  induction addrs generalizing w with
  | nil => simpa [refreshAddresses] using htail
  | cons a rest ih =>
    rcases refreshAddresses_cases env sink ap a rest w with
      ⟨hp, h⟩ | ⟨e, w1, hp, -, h⟩ | ⟨w1, hp, -, h⟩
    · rw [h]
      exact ih w
    · rw [h]
      simpa [recordsOnLatestPool] using htail
    · rw [h]
      simp only [Step.after, List.cons_append, recordsOnLatestPool, beq_self_eq_true,
        Bool.true_and]
      exact ih w1

theorem recordsOnLatestPool_subnet (env : Env) (sink : addressConfigSink σ) (sp : addressSpace)
    (it : Item) (w : σ) (cur : Option addressPool) (tail : List Event)
    (htail : ∀ c, recordsOnLatestPool c tail = true) :
    recordsOnLatestPool cur
      ((refreshSubnet env sink sp it.ifName it.priority it.subnet w).trace ++ tail) = true := by
  rcases refreshSubnet_cases env sink sp it.ifName it.priority it.subnet w with
    ⟨e, hc, h⟩ | ⟨subnet, ap, e, w1, hc, -, -, h⟩ | ⟨subnet, ap, err, w1, hc, -, -, h⟩
  · rw [h]
    simpa using htail cur
  · rw [h]
    simpa [recordsOnLatestPool] using htail (some ap)
  · rw [h]
    simp only [Step.after, List.cons_append, recordsOnLatestPool]
    exact recordsOnLatestPool_addresses env sink ap _ w1 tail (htail _)

/-- In the walk over the document every record is requested from the pool returned
by the latest pool call. -/
theorem runItems_recordsOnLatestPool (env : Env) (sink : addressConfigSink σ)
    (sp : addressSpace) (items : List Item) (w : σ) (cur : Option addressPool)
    (tail : List Event) (htail : ∀ c, recordsOnLatestPool c tail = true) :
    recordsOnLatestPool cur ((runItems env sink sp items w).trace ++ tail) = true := by
  induction items generalizing w cur with
  | nil => simpa [runItems] using htail cur
  | cons it rest ih =>
    simp only [runItems]
    cases hr : (refreshSubnet env sink sp it.ifName it.priority it.subnet w).err with
    | some e =>
      rw [Step.seq_of_err hr]
      exact recordsOnLatestPool_subnet env sink sp it w cur tail htail
    | none =>
      rw [Step.seq_of_ok hr]
      simp only [List.append_assoc]
      exact recordsOnLatestPool_subnet env sink sp it w cur _ (fun c => ih _ c)

end Walk

section Refresh

variable {σ : Type}

theorem refresh_throttled (env : Env) (s : azureSource σ) (w : σ)
    (h : timeSince env.sinceNow s.lastRefresh < s.minPollPeriod) :
    refresh env s w = ⟨Result.returned none, s, w, []⟩ := by
  simp [refresh, h]

/-- The refresh that reaches the construction of the pools: the walk over the
subnets of the correlated interfaces, then the activation if the walk succeeds. -/
theorem refresh_of_reaches (env : Env) (s : azureSource σ) (w : σ)
    (sink : addressConfigSink σ) (interfaces : List NetInterface) (sp : addressSpace)
    (w1 : σ) (doc : xmlDocument) (h : Reaches env s w sink interfaces sp w1 doc) :
    refresh env s w =
      match (runItems env sink sp (workItems env interfaces doc) w1).err with
      | some e =>
        ⟨Result.returned (some e), polled env s,
          (runItems env sink sp (workItems env interfaces doc) w1).world,
          preamble env sp ++ (runItems env sink sp (workItems env interfaces doc) w1).trace ++
            [Event.bodyClose]⟩
      | none =>
        ⟨Result.returned none, polled env s,
          sink.setAddressSpace sp (runItems env sink sp (workItems env interfaces doc) w1).world,
          preamble env sp ++ (runItems env sink sp (workItems env interfaces doc) w1).trace ++
            [Event.setAddressSpace sp, Event.bodyClose]⟩ := by
  obtain ⟨h1, h2, h3, h4, body, h5, h6⟩ := h
  unfold refresh
  rw [if_neg h1]
  simp only [h2, h3, h4, h5, h6, refreshInterfaces_eq_runItems, workItems, preamble, polled]
  cases (runItems env sink sp
    (doc.Interface.flatMap (interfaceItems env interfaces)) w1).err <;> simp

/-- The ways a refresh goes. -/
theorem refresh_cases (env : Env) (s : azureSource σ) (w : σ) :
    (timeSince env.sinceNow s.lastRefresh < s.minPollPeriod ∧
      refresh env s w = ⟨Result.returned none, s, w, []⟩) ∨
    (¬ timeSince env.sinceNow s.lastRefresh < s.minPollPeriod ∧
      ((∃ e, env.netInterfaces = .error e ∧
        refresh env s w = ⟨Result.returned (some e), polled env s, w, [Event.netInterfaces]⟩) ∨
      (∃ interfaces, env.netInterfaces = .ok interfaces ∧ s.sink = none ∧
        refresh env s w = ⟨Result.panicked, polled env s, w, [Event.netInterfaces]⟩) ∨
      (∃ sink interfaces sp e w1, env.netInterfaces = .ok interfaces ∧ s.sink = some sink ∧
        sink.newAddressSpace env.localDefaultAddressSpaceId env.localScope w =
          ((sp, some e), w1) ∧
        refresh env s w = ⟨Result.returned (some e), polled env s, w1,
          [Event.netInterfaces,
           Event.newAddressSpace env.localDefaultAddressSpaceId env.localScope sp (some e)]⟩) ∨
      (∃ sink interfaces sp e w1, env.netInterfaces = .ok interfaces ∧ s.sink = some sink ∧
        sink.newAddressSpace env.localDefaultAddressSpaceId env.localScope w =
          ((sp, none), w1) ∧
        env.httpGet azureQueryUrl = .error e ∧
        refresh env s w = ⟨Result.returned (some e), polled env s, w1,
          [Event.netInterfaces,
           Event.newAddressSpace env.localDefaultAddressSpaceId env.localScope sp none,
           Event.httpGet azureQueryUrl]⟩) ∨
      (∃ sink interfaces sp e w1 body, env.netInterfaces = .ok interfaces ∧ s.sink = some sink ∧
        sink.newAddressSpace env.localDefaultAddressSpaceId env.localScope w =
          ((sp, none), w1) ∧
        env.httpGet azureQueryUrl = .ok body ∧ env.xmlDecode body = .error e ∧
        refresh env s w = ⟨Result.returned (some e), polled env s, w1,
          preamble env sp ++ [Event.bodyClose]⟩) ∨
      (∃ sink interfaces sp w1 doc, Reaches env s w sink interfaces sp w1 doc))) := by
  by_cases h1 : timeSince env.sinceNow s.lastRefresh < s.minPollPeriod
  · exact Or.inl ⟨h1, refresh_throttled env s w h1⟩
  · refine Or.inr ⟨h1, ?_⟩
    cases h2 : env.netInterfaces with
    | error e =>
      refine Or.inl ⟨e, rfl, ?_⟩
      simp [refresh, h1, h2, polled]
    | ok interfaces =>
      cases h3 : s.sink with
      | none =>
        refine Or.inr (Or.inl ⟨interfaces, rfl, rfl, ?_⟩)
        simp [refresh, h1, h2, h3, polled]
      | some sink =>
        rcases h4 : sink.newAddressSpace env.localDefaultAddressSpaceId env.localScope w with
          ⟨⟨sp, _ | e⟩, w1⟩
        · cases h5 : env.httpGet azureQueryUrl with
          | error e =>
            refine Or.inr (Or.inr (Or.inr (Or.inl ⟨sink, interfaces, sp, e, w1, rfl, rfl, h4, rfl, ?_⟩)))
            simp [refresh, h1, h2, h3, h4, h5, polled]
          | ok body =>
            cases h6 : env.xmlDecode body with
            | error e =>
              refine Or.inr (Or.inr (Or.inr (Or.inr (Or.inl
                ⟨sink, interfaces, sp, e, w1, body, rfl, rfl, h4, rfl, h6, ?_⟩))))
              simp [refresh, h1, h2, h3, h4, h5, h6, polled, preamble]
            | ok doc =>
              exact Or.inr (Or.inr (Or.inr (Or.inr (Or.inr
                ⟨sink, interfaces, sp, w1, doc, h1, h2, h3, h4, body, h5, h6⟩))))
        · refine Or.inr (Or.inr (Or.inl ⟨sink, interfaces, sp, e, w1, rfl, rfl, h4, ?_⟩))
          simp [refresh, h1, h2, h3, h4, polled]

end Refresh

section Gate

variable {σ : Type}

theorem refresh_source (env : Env) (s : azureSource σ) (w : σ)
    (h : ¬ timeSince env.sinceNow s.lastRefresh < s.minPollPeriod) :
    (refresh env s w).source = polled env s := by
  rcases refresh_cases env s w with ⟨h1, -⟩ | ⟨-, h2⟩
  · exact absurd h1 h
  · rcases h2 with ⟨e, -, h3⟩ | ⟨i, -, -, h3⟩ | ⟨sink, ifs, sp, e, w1, -, -, -, h3⟩ |
      ⟨sink, ifs, sp, e, w1, -, -, -, -, h3⟩ | ⟨sink, ifs, sp, e, w1, body, -, -, -, -, -, h3⟩ |
      ⟨sink, i, sp, w1, doc, h3⟩
    · rw [h3]
    · rw [h3]
    · rw [h3]
    · rw [h3]
    · rw [h3]
    · rw [refresh_of_reaches env s w sink i sp w1 doc h3]
      cases (runItems env sink sp (workItems env i doc) w1).err <;> rfl

theorem timeSince_lt_iff (clock t p : Int) (h1 : minDuration < p) (h2 : p ≤ maxDuration) :
    timeSince clock t < p ↔ clock - t < p := by
  unfold timeSince timeSub
  split
  · constructor <;> intro h <;> omega
  · split
    · constructor <;> intro h <;> omega
    · rfl

/-- C1. Poll gate of `refresh`. When the duration since `lastRefresh` is below
`minPollPeriod`, refresh returns nil, makes no call at all (no interface query, no
fetch, no sink call) and leaves the adapter and the address manager unchanged.
Otherwise the adapter it leaves has `lastRefresh` set to the clock reading and
nothing else changed, whatever the outcome of the call (error, success or the
invocation of an unbound sink); and a later refresh whose clock reads less than
`minPollPeriod` after that recorded instant makes no call, returns nil and changes
nothing. For a poll period that is a duration above the smallest one, the gate
condition is the plain comparison `now - lastRefresh < minPollPeriod`. -/
theorem refresh_poll_gate (env : Env) (s : azureSource σ) (w : σ) :
    (timeSince env.sinceNow s.lastRefresh < s.minPollPeriod →
      refresh env s w = ⟨Result.returned none, s, w, []⟩) ∧
    (¬ timeSince env.sinceNow s.lastRefresh < s.minPollPeriod →
      (refresh env s w).source = { s with lastRefresh := env.now } ∧
      ∀ env2 : Env, timeSince env2.sinceNow env.now < s.minPollPeriod →
        refresh env2 (refresh env s w).source (refresh env s w).world =
          ⟨Result.returned none, (refresh env s w).source, (refresh env s w).world, []⟩) ∧
    (minDuration < s.minPollPeriod → s.minPollPeriod ≤ maxDuration →
      (timeSince env.sinceNow s.lastRefresh < s.minPollPeriod ↔
        env.sinceNow - s.lastRefresh < s.minPollPeriod)) := by
  refine ⟨refresh_throttled env s w, fun h => ⟨refresh_source env s w h, fun env2 h2 => ?_⟩,
    timeSince_lt_iff _ _ _⟩
  apply refresh_throttled
  rw [refresh_source env s w h]
  exact h2

/-- An unthrottled refresh of the started adapter at the instant `now` records
`now`; a refresh one second later is suppressed. -/
theorem refresh_poll_gate_witness :
    (refresh (scenarioEnv (scenarioDoc "001122334455")) (startedSource countingSink) 0).source
        = { startedSource countingSink with lastRefresh := 63000000000000000001 } ∧
    refresh { scenarioEnv (scenarioDoc "001122334455") with
          sinceNow := 63000000001000000001, now := 63000000001000000002 }
        (refresh (scenarioEnv (scenarioDoc "001122334455")) (startedSource countingSink)
          0).source
        (refresh (scenarioEnv (scenarioDoc "001122334455")) (startedSource countingSink)
          0).world =
      ⟨Result.returned none,
        (refresh (scenarioEnv (scenarioDoc "001122334455")) (startedSource countingSink)
          0).source,
        (refresh (scenarioEnv (scenarioDoc "001122334455")) (startedSource countingSink)
          0).world, []⟩ :=
  have h := (refresh_poll_gate (scenarioEnv (scenarioDoc "001122334455"))
    (startedSource countingSink) 0).2.1 (by decide)
  ⟨h.1, h.2 _ (by decide)⟩

/-! ### Atomic publish -/

theorem preamble_no_activation (env : Env) (sp sp2 : addressSpace) :
    Event.setAddressSpace sp2 ∉ preamble env sp := by
  simp [preamble]

theorem runItems_no_activation (env : Env) (sink : addressConfigSink σ) (sp : addressSpace)
    (items : List Item) (w : σ) (sp2 : addressSpace) :
    Event.setAddressSpace sp2 ∉ (runItems env sink sp items w).trace := by
  intro h
  have := runItems_isBuild env sink sp items w _ h
  simp [Event.isBuild] at this

/-- C2. Atomic publish. A refresh that does not return nil (it returns an error,
or stops at an unbound sink) never calls `setAddressSpace`. When `setAddressSpace`
is called, the refresh returns nil, the call is made once, it is the last call on
the sink (only the release of the response body follows), and its argument is the
address space that `newAddressSpace` returned in this same refresh. Every
unthrottled refresh that returns nil makes that call. -/
theorem refresh_atomic_publish (env : Env) (s : azureSource σ) (w : σ) :
    ((refresh env s w).result ≠ Result.returned none →
      ∀ sp, Event.setAddressSpace sp ∉ (refresh env s w).trace) ∧
    (∀ sp, Event.setAddressSpace sp ∈ (refresh env s w).trace →
      (refresh env s w).result = Result.returned none ∧
      ∃ sink pre w1, s.sink = some sink ∧
        sink.newAddressSpace env.localDefaultAddressSpaceId env.localScope w =
          ((sp, none), w1) ∧
        (refresh env s w).trace = pre ++ [Event.setAddressSpace sp, Event.bodyClose] ∧
        ∀ sp2, Event.setAddressSpace sp2 ∉ pre) ∧
    ((refresh env s w).result = Result.returned none →
      ¬ timeSince env.sinceNow s.lastRefresh < s.minPollPeriod →
      ∃ sp, Event.setAddressSpace sp ∈ (refresh env s w).trace) := by
  have key : ∀ sp, Event.setAddressSpace sp ∈ (refresh env s w).trace →
      (refresh env s w).result = Result.returned none ∧
      ∃ sink pre w1, s.sink = some sink ∧
        sink.newAddressSpace env.localDefaultAddressSpaceId env.localScope w =
          ((sp, none), w1) ∧
        (refresh env s w).trace = pre ++ [Event.setAddressSpace sp, Event.bodyClose] ∧
        ∀ sp2, Event.setAddressSpace sp2 ∉ pre := by
    intro sp hmem
    rcases refresh_cases env s w with ⟨-, h3⟩ | ⟨-, h2⟩
    · rw [h3] at hmem
      simp at hmem
    · rcases h2 with ⟨e, -, h3⟩ | ⟨i, -, -, h3⟩ | ⟨sink, ifs, sp1, e, w1, -, -, -, h3⟩ |
        ⟨sink, ifs, sp1, e, w1, -, -, -, -, h3⟩ | ⟨sink, ifs, sp1, e, w1, body, -, -, -, -, -, h3⟩ |
        ⟨sink, i, sp1, w1, doc, h3⟩
      · rw [h3] at hmem; simp at hmem
      · rw [h3] at hmem; simp at hmem
      · rw [h3] at hmem; simp at hmem
      · rw [h3] at hmem; simp at hmem
      · rw [h3] at hmem; simp [preamble] at hmem
      · have hr := refresh_of_reaches env s w sink i sp1 w1 doc h3
        have hno := runItems_no_activation env sink sp1 (workItems env i doc) w1
        cases herr : (runItems env sink sp1 (workItems env i doc) w1).err with
        | some e =>
          rw [herr] at hr
          rw [hr] at hmem
          simp only [List.mem_append, List.mem_singleton] at hmem
          rcases hmem with (h | h) | h
          · exact absurd h (preamble_no_activation env sp1 sp)
          · exact absurd h (hno sp)
          · cases h
        | none =>
          rw [herr] at hr
          rw [hr] at hmem ⊢
          have hsp : sp = sp1 := by
            simp only [List.mem_append, List.mem_cons, List.mem_singleton] at hmem
            rcases hmem with (h | h) | h
            · exact absurd h (preamble_no_activation env sp1 sp)
            · exact absurd h (hno sp)
            · rcases h with h | h | h
              · cases h; rfl
              · cases h
              · simp at h
          subst hsp
          refine ⟨rfl, sink, preamble env sp ++
            (runItems env sink sp (workItems env i doc) w1).trace, w1, h3.2.2.1, h3.2.2.2.1,
            rfl, fun sp2 h => ?_⟩
          rcases List.mem_append.1 h with h | h
          · exact preamble_no_activation env sp sp2 h
          · exact hno sp2 h
  refine ⟨fun hne sp hmem => hne (key sp hmem).1, key, fun hres hthr => ?_⟩
  rcases refresh_cases env s w with ⟨h1, -⟩ | ⟨-, h2⟩
  · exact absurd h1 hthr
  · rcases h2 with ⟨e, -, h3⟩ | ⟨i, -, -, h3⟩ | ⟨sink, ifs, sp1, e, w1, -, -, -, h3⟩ |
      ⟨sink, ifs, sp1, e, w1, -, -, -, -, h3⟩ | ⟨sink, ifs, sp1, e, w1, body, -, -, -, -, -, h3⟩ |
      ⟨sink, i, sp1, w1, doc, h3⟩
    · rw [h3] at hres; simp at hres
    · rw [h3] at hres; simp at hres
    · rw [h3] at hres; simp at hres
    · rw [h3] at hres; simp at hres
    · rw [h3] at hres; simp at hres
    · have hr := refresh_of_reaches env s w sink i sp1 w1 doc h3
      cases herr : (runItems env sink sp1 (workItems env i doc) w1).err with
      | some e =>
        rw [herr] at hr
        rw [hr] at hres
        simp at hres
      | none =>
        rw [herr] at hr
        rw [hr]
        exact ⟨sp1, by simp⟩

/-- A sink that refuses every address record: the refresh of the scenario returns
the error of the sink and does not activate the space it was building. -/
theorem refresh_atomic_publish_witness :
    (refresh (scenarioEnv (scenarioDoc "001122334455")) (startedSource refusingSink)
      0).result = Result.returned (some (Error.other 7)) ∧
    Event.setAddressSpace 1 ∉
      (refresh (scenarioEnv (scenarioDoc "001122334455")) (startedSource refusingSink)
        0).trace :=
  ⟨by decide,
    (refresh_atomic_publish (scenarioEnv (scenarioDoc "001122334455"))
      (startedSource refusingSink) 0).1 (by decide) 1⟩

/-! ### Refresh without a sink -/

/-- C6, as the code has it. On an adapter without a bound sink (stopped, or never
started) a throttled refresh does nothing and returns nil, and an unthrottled
refresh whose interface query fails returns that error; in both cases no method of
the sink is invoked. An unthrottled refresh whose interface query succeeds records
the poll instant and then invokes `newAddressSpace` on the unbound sink: it does
not return. -/
theorem refresh_after_stop (env : Env) (s : azureSource σ) (w : σ) :
    (timeSince env.sinceNow s.lastRefresh < s.minPollPeriod →
      refresh env (stop s) w = ⟨Result.returned none, stop s, w, []⟩) ∧
    (¬ timeSince env.sinceNow s.lastRefresh < s.minPollPeriod →
      (∀ e, env.netInterfaces = .error e →
        refresh env (stop s) w =
          ⟨Result.returned (some e), polled env (stop s), w, [Event.netInterfaces]⟩) ∧
      (∀ interfaces, env.netInterfaces = .ok interfaces →
        refresh env (stop s) w =
          ⟨Result.panicked, polled env (stop s), w, [Event.netInterfaces]⟩)) := by
  refine ⟨fun h => refresh_throttled env (stop s) w h, fun h => ⟨fun e he => ?_, fun i hi => ?_⟩⟩
  · simp [refresh, stop, h, he, polled]
  · simp [refresh, stop, h, hi, polled]

/-- The stopped adapter of the scenario, refreshed when a poll is due, invokes the
unbound sink. -/
theorem refresh_after_stop_witness :
    refresh (scenarioEnv (scenarioDoc "001122334455")) (stop (startedSource countingSink)) 0 =
      ⟨Result.panicked,
        polled (scenarioEnv (scenarioDoc "001122334455")) (stop (startedSource countingSink)),
        0, [Event.netInterfaces]⟩ :=
  (refresh_after_stop (scenarioEnv (scenarioDoc "001122334455")) (startedSource countingSink)
    0).2 (by decide) |>.2 _ rfl

/-- C6 fails on the code: the stopped adapter of the scenario, refreshed when a
poll is due, neither returns nil nor returns an error: after the interface query
it invokes `newAddressSpace` on the unbound sink. -/
theorem stopped_refresh_panics :
    (refresh (scenarioEnv (scenarioDoc "001122334455")) (stop (startedSource countingSink))
      0).result = Result.panicked ∧
    (refresh (scenarioEnv (scenarioDoc "001122334455")) (stop (startedSource countingSink))
      0).trace = [Event.netInterfaces] := by
  decide

end Gate

section Population

variable {σ : Type}

theorem mem_workItems (env : Env) (interfaces : List NetInterface) (doc : xmlDocument)
    (it : Item) :
    it ∈ workItems env interfaces doc ↔
      ∃ i ∈ doc.Interface, ∃ sn ∈ i.IPSubnet,
        correlate env interfaces i = some (it.ifName, it.priority) ∧ it.subnet = sn := by
  simp only [workItems, List.mem_flatMap, interfaceItems]
  constructor
  · rintro ⟨i, hi, h⟩
    cases hc : correlate env interfaces i with
    | none => simp [hc] at h
    | some np =>
      simp only [hc, List.mem_map] at h
      obtain ⟨sn, hsn, rfl⟩ := h
      exact ⟨i, hi, sn, hsn, hc, rfl⟩
  · rintro ⟨i, hi, sn, hsn, hc, rfl⟩
    refine ⟨i, hi, ?_⟩
    simp only [hc, List.mem_map]
    exact ⟨it.subnet, hsn, rfl⟩

theorem workItems_parse (env : Env) (interfaces : List NetInterface) (doc : xmlDocument)
    (hparse : ∀ i ∈ doc.Interface, correlate env interfaces i ≠ none →
      ∀ sn ∈ i.IPSubnet, ∃ subnet, env.parseCIDR sn.Prefix = .ok subnet) :
    ∀ it ∈ workItems env interfaces doc, it.Parses env := by
  intro it hit
  obtain ⟨i, hi, sn, hsn, hc, rfl⟩ := (mem_workItems env interfaces doc it).1 hit
  exact hparse i hi (by simp [hc]) it.subnet hsn

theorem workItems_uncorrelated (env : Env) (interfaces : List NetInterface) (doc : xmlDocument)
    (h : ∀ i ∈ doc.Interface, correlate env interfaces i = none) :
    workItems env interfaces doc = [] := by
  cases hw : workItems env interfaces doc with
  | nil => rfl
  | cons it rest =>
    obtain ⟨i, hi, sn, -, hc, -⟩ :=
      (mem_workItems env interfaces doc it).1 (by rw [hw]; simp)
    rw [h i hi] at hc
    cases hc

theorem calls_preamble (env : Env) (sp : addressSpace) :
    calls (preamble env sp) = [Call.space env.localDefaultAddressSpaceId env.localScope] := by
  simp [calls, preamble, Event.call]

theorem clean_preamble (env : Env) (sp : addressSpace) : clean (preamble env sp) := by
  intro ev hev
  simp only [preamble, List.mem_cons, List.mem_singleton, List.not_mem_nil, or_false] at hev
  rcases hev with rfl | rfl | rfl | rfl <;> rfl

/-- Under `Reaches`, the trace of the refresh is the preamble, the walk, and the
closing calls. -/
theorem refresh_trace_of_reaches (env : Env) (s : azureSource σ) (w : σ)
    (sink : addressConfigSink σ) (interfaces : List NetInterface) (sp : addressSpace)
    (w1 : σ) (doc : xmlDocument) (h : Reaches env s w sink interfaces sp w1 doc) :
    ∃ tail, (tail = [Event.bodyClose] ∨ tail = [Event.setAddressSpace sp, Event.bodyClose]) ∧
      (refresh env s w).trace =
        preamble env sp ++ (runItems env sink sp (workItems env interfaces doc) w1).trace ++
          tail := by
  rw [refresh_of_reaches env s w sink interfaces sp w1 doc h]
  cases (runItems env sink sp (workItems env interfaces doc) w1).err with
  | some e => exact ⟨_, Or.inl rfl, rfl⟩
  | none => exact ⟨_, Or.inr rfl, rfl⟩

theorem clean_walk_of_clean_refresh (env : Env) (s : azureSource σ) (w : σ)
    (sink : addressConfigSink σ) (interfaces : List NetInterface) (sp : addressSpace)
    (w1 : σ) (doc : xmlDocument) (h : Reaches env s w sink interfaces sp w1 doc)
    (hclean : clean (refresh env s w).trace) :
    clean (runItems env sink sp (workItems env interfaces doc) w1).trace := by
  obtain ⟨tail, -, ht⟩ := refresh_trace_of_reaches env s w sink interfaces sp w1 doc h
  rw [ht] at hclean
  exact (clean_append.1 (clean_append.1 hclean).1).2

/-- A refresh that reaches the construction of the pools, in which every prefix of a
correlated interface parses and no sink call returns an unrecovered error, returns
nil after exactly the calls of a full population, each record on the latest pool,
each pool on the space that is activated at the end. -/
theorem refresh_populates (env : Env) (s : azureSource σ) (w : σ)
    (sink : addressConfigSink σ) (interfaces : List NetInterface) (sp : addressSpace)
    (w1 : σ) (doc : xmlDocument) (h : Reaches env s w sink interfaces sp w1 doc)
    (hparse : ∀ it ∈ workItems env interfaces doc, it.Parses env)
    (hclean : clean (runItems env sink sp (workItems env interfaces doc) w1).trace) :
    (refresh env s w).result = Result.returned none ∧
    calls (refresh env s w).trace = populationCalls env interfaces doc ∧
    recordsOnLatestPool none (refresh env s w).trace = true ∧
    poolsOnSpace sp (refresh env s w).trace = true ∧
    (refresh env s w).trace =
      preamble env sp ++ (runItems env sink sp (workItems env interfaces doc) w1).trace ++
        [Event.setAddressSpace sp, Event.bodyClose] := by
  have hok := runItems_ok env sink sp _ w1 hparse hclean
  have hr := refresh_of_reaches env s w sink interfaces sp w1 doc h
  rw [hok] at hr
  have hcalls := (runItems_calls env sink sp (workItems env interfaces doc) w1).2 hok
  rw [hr]
  refine ⟨rfl, ?_, ?_, ?_, rfl⟩
  · simp only [calls_append, calls_preamble, hcalls.1, populationCalls]
    simp [calls, Event.call]
  · simp only [List.append_assoc]
    simp only [preamble, List.cons_append, List.nil_append, recordsOnLatestPool]
    exact runItems_recordsOnLatestPool env sink sp _ w1 none _
      (by intro c; simp [recordsOnLatestPool])
  · have := runItems_poolsOnSpace env sink sp (workItems env interfaces doc) w1
    simp only [poolsOnSpace, List.all_append, Bool.and_eq_true] at this ⊢
    refine ⟨⟨?_, this⟩, ?_⟩
    · simp [preamble]
    · simp

/-- A pool or record call that returned an unrecovered error is the last call on
the sink: the refresh returns that error and nothing is activated. -/
theorem refresh_build_fatal (env : Env) (s : azureSource σ) (w : σ) (pre post : List Event)
    (ev : Event) (e : Error) (htr : (refresh env s w).trace = pre ++ ev :: post)
    (hb : ev.isBuild = true) (hev : ev.fatal = some e) :
    (refresh env s w).result = Result.returned (some e) ∧ post = [Event.bodyClose] ∧
      ∀ sp, Event.setAddressSpace sp ∉ (refresh env s w).trace := by
  have hmem : ev ∈ (refresh env s w).trace := by rw [htr]; simp
  rcases refresh_cases env s w with ⟨-, h3⟩ | ⟨-, h2⟩
  · rw [h3] at hmem; simp at hmem
  · rcases h2 with ⟨e1, -, h3⟩ | ⟨i, -, -, h3⟩ | ⟨sink, ifs, sp1, e1, w1, -, -, -, h3⟩ |
      ⟨sink, ifs, sp1, e1, w1, -, -, -, -, h3⟩ | ⟨sink, ifs, sp1, e1, w1, body, -, -, -, -, -, h3⟩ |
      ⟨sink, i, sp1, w1, doc, h3⟩
    · rw [h3] at hmem; simp at hmem; subst hmem; cases hb
    · rw [h3] at hmem; simp at hmem; subst hmem; cases hb
    · rw [h3] at hmem; simp at hmem; rcases hmem with rfl | rfl <;> cases hb
    · rw [h3] at hmem; simp at hmem; rcases hmem with rfl | rfl | rfl <;> cases hb
    · rw [h3] at hmem; simp [preamble] at hmem
      rcases hmem with rfl | rfl | rfl | rfl | rfl <;> cases hb
    · have hr := refresh_of_reaches env s w sink i sp1 w1 doc h3
      have hfatal := runItems_fatal env sink sp1 (workItems env i doc) w1
      cases herr : (runItems env sink sp1 (workItems env i doc) w1).err with
      | none =>
        rw [herr] at hr hfatal
        rw [hr] at hmem
        exfalso
        simp only [List.mem_append, List.mem_cons, List.mem_singleton, List.not_mem_nil,
          or_false] at hmem
        rcases hmem with (h | h) | h
        · have := clean_preamble env sp1 ev h
          rw [hev] at this; cases this
        · have := hfatal ev h
          rw [hev] at this; cases this
        · rcases h with rfl | rfl <;> cases hb
      | some e1 =>
        rw [herr] at hr hfatal
        have hin : ev ∈ (runItems env sink sp1 (workItems env i doc) w1).trace := by
          rw [hr] at hmem
          simp only [List.mem_append, List.mem_singleton] at hmem
          rcases hmem with (h | h) | h
          · have := clean_preamble env sp1 ev h
            rw [hev] at this; cases this
          · exact h
          · subst h; cases hb
        have hends : EndsFatal (runItems env sink sp1 (workItems env i doc) w1).trace e1 := by
          rcases hfatal with h | ⟨h, -⟩
          · exact h
          · have := h ev hin
            rw [hev] at this; cases this
        have hends2 : EndsFatal (preamble env sp1 ++
            (runItems env sink sp1 (workItems env i doc) w1).trace) e1 :=
          EndsFatal.append (clean_preamble env sp1) hends
        have htr2 : (preamble env sp1 ++
            (runItems env sink sp1 (workItems env i doc) w1).trace) ++ [Event.bodyClose] =
            pre ++ ev :: post := by
          rw [← htr, hr]
        rcases List.eq_nil_or_concat post with rfl | ⟨q, x, rfl⟩
        · have := (List.append_inj' htr2 rfl).2
          simp only [List.cons.injEq, and_true] at this
          subst this; cases hb
        · have h4 : (preamble env sp1 ++
              (runItems env sink sp1 (workItems env i doc) w1).trace) ++ [Event.bodyClose] =
              (pre ++ ev :: q) ++ [x] := by simpa using htr2
          obtain ⟨h5, h6⟩ := List.append_inj' h4 rfl
          simp only [List.cons.injEq, and_true] at h6
          obtain ⟨hq, he⟩ := hends2.last h5 hev
          subst hq he h6
          refine ⟨by rw [hr], by simp, fun sp2 hsp => ?_⟩
          rw [hr] at hsp
          simp only [List.mem_append, List.mem_singleton] at hsp
          rcases hsp with (h | h) | h
          · exact preamble_no_activation env sp1 sp2 h
          · exact runItems_no_activation env sink sp1 _ w1 sp2 h
          · cases h

end Population

section FullPopulation

variable {σ : Type}

/-- C3, as the code has it. Full population on success. When the refresh is not
throttled, the local interfaces and the decoded document are available, every
subnet prefix of every correlated document interface parses as a CIDR network and
the sink never returns an error, refresh returns nil and its sink calls are
exactly: `newAddressSpace`; then, in document order, for each document interface
that correlates to a local interface, for each of its subnets, one `newAddressPool`
with the name of that local interface, the priority and the parsed network,
followed by one `newAddressRecord` for each non-primary address of the subnet in
order; then `setAddressSpace`. Each record is requested from the pool its subnet's
pool call returned, each pool from the space that is activated. A document none
of whose interfaces correlates gives `newAddressSpace` and `setAddressSpace` only.
A document interface correlates when its MAC attribute, lowered, is the
hardware address of a local interface written in lowercase hexadecimal without
separators. -/
theorem refresh_full_population (env : Env) (s : azureSource σ) (w : σ)
    (sink : addressConfigSink σ) (interfaces : List NetInterface) (sp : addressSpace)
    (w1 : σ) (doc : xmlDocument) (hreach : Reaches env s w sink interfaces sp w1 doc)
    (hparse : ∀ i ∈ doc.Interface, correlate env interfaces i ≠ none →
      ∀ sn ∈ i.IPSubnet, ∃ subnet, env.parseCIDR sn.Prefix = .ok subnet)
    (hpool : ∀ sp n p net w0, (sink.newAddressPool sp n p net w0).1.2 = none)
    (hrec : ∀ ap ip w0, (sink.newAddressRecord ap ip w0).1 = none) :
    (refresh env s w).result = Result.returned none ∧
    calls (refresh env s w).trace = populationCalls env interfaces doc ∧
    recordsOnLatestPool none (refresh env s w).trace = true ∧
    poolsOnSpace sp (refresh env s w).trace = true ∧
    Event.setAddressSpace sp ∈ (refresh env s w).trace ∧
    ((∀ i ∈ doc.Interface, correlate env interfaces i = none) →
      calls (refresh env s w).trace =
        [Call.space env.localDefaultAddressSpaceId env.localScope, Call.activate]) := by
  have hclean := runItems_clean env sink sp (workItems env interfaces doc) w1
    (fun sp n p net w0 => Or.inl (hpool sp n p net w0)) hrec
  obtain ⟨h1, h2, h3, h4, h5⟩ := refresh_populates env s w sink interfaces sp w1 doc hreach
    (workItems_parse env interfaces doc hparse) hclean
  refine ⟨h1, h2, h3, h4, by rw [h5]; simp, fun hnone => ?_⟩
  rw [h2, populationCalls, workItems_uncorrelated env interfaces doc hnone]
  simp [expectedCalls]

/-- The scenario: the document interface with MAC attribute `001122334455`,
primary, matches `eth0`; its subnet `10.0.0.0/24` holds `10.0.0.4` (primary) and
`10.0.0.5`. The refresh returns nil after one pool `(eth0, 0, 10.0.0.0/24)`, one
record for `10.0.0.5`, none for `10.0.0.4`, and the activation. -/
theorem refresh_full_population_witness :
    (refresh (scenarioEnv (scenarioDoc "001122334455")) (startedSource countingSink)
      0).result = Result.returned none ∧
    calls (refresh (scenarioEnv (scenarioDoc "001122334455")) (startedSource countingSink)
      0).trace =
      [Call.space "LocalDefaultAddressSpace" "local",
       Call.pool "eth0" 0 ⟨[10, 0, 0, 0], [255, 255, 255, 0]⟩,
       Call.record [10, 0, 0, 5],
       Call.activate] :=
  have h := refresh_full_population (scenarioEnv (scenarioDoc "001122334455"))
    (startedSource countingSink) 0 countingSink
    [⟨"lo", []⟩, ⟨"eth0", [0x00, 0x11, 0x22, 0x33, 0x44, 0x55]⟩] 1 1
    (scenarioDoc "001122334455")
    ⟨by decide, rfl, rfl, rfl, "<Interfaces/>", rfl, rfl⟩
    (by simp [scenarioDoc, scenarioEnv])
    (fun _ _ _ _ _ => rfl) (fun _ _ _ => rfl)
  ⟨h.1, h.2.1.trans (by decide)⟩

/-- C3 fails on the code for the scenario as the specification writes it: with the
MAC attribute `00:11:22:33:44:55` in the document and `eth0` with that hardware
address on the host, the refresh returns nil but requests no pool and no record;
it activates an empty space. -/
theorem refresh_scenario_with_separators :
    (refresh (scenarioEnv (scenarioDoc "00:11:22:33:44:55")) (startedSource countingSink)
      0).result = Result.returned none ∧
    calls (refresh (scenarioEnv (scenarioDoc "00:11:22:33:44:55")) (startedSource countingSink)
      0).trace = [Call.space "LocalDefaultAddressSpace" "local", Call.activate] ∧
    Call.pool "eth0" 0 ⟨[10, 0, 0, 0], [255, 255, 255, 0]⟩ ∉
      calls (refresh (scenarioEnv (scenarioDoc "00:11:22:33:44:55"))
        (startedSource countingSink) 0).trace := by
  decide

end FullPopulation

section Errors

variable {σ : Type}

theorem mem_expectedCalls_record (env : Env) (items : List Item) (it : Item) (a : xmlIPAddress)
    (hit : it ∈ items) (hparse : it.Parses env) (ha : a ∈ it.subnet.IPAddress)
    (hp : a.IsPrimary = false) :
    Call.record (env.parseIP a.Address) ∈ expectedCalls env items := by
  obtain ⟨subnet, hs⟩ := hparse
  simp only [expectedCalls, List.mem_flatMap]
  refine ⟨it, hit, ?_⟩
  simp only [itemCalls, hs, recordCalls, List.mem_cons, List.mem_map, List.mem_filter]
  exact Or.inr ⟨a, ⟨ha, by simp [hp]⟩, rfl⟩

/-- C5, as the code has it. `refresh` does not look at the result of parsing an
IP literal: for a non-primary address whose literal does not parse it requests an
address record for the nil address from the pool. When the sink refuses a record
(for the nil address as for any other) refresh returns the error of the sink at
once: the refused call is the last call on the sink and the space is not
activated. When no sink call fails and every prefix parses, refresh returns nil,
the record call for the nil address is among its calls, and the space is
activated. -/
theorem refresh_invalid_address (env : Env) (s : azureSource σ) (w : σ) :
    (∀ pre post ap ip e,
      (refresh env s w).trace = pre ++ Event.newAddressRecord ap ip (some e) :: post →
      (refresh env s w).result = Result.returned (some e) ∧ post = [Event.bodyClose] ∧
        ∀ sp, Event.setAddressSpace sp ∉ (refresh env s w).trace) ∧
    (∀ sink interfaces sp w1 doc, Reaches env s w sink interfaces sp w1 doc →
      (∀ i ∈ doc.Interface, correlate env interfaces i ≠ none →
        ∀ sn ∈ i.IPSubnet, ∃ subnet, env.parseCIDR sn.Prefix = .ok subnet) →
      clean (refresh env s w).trace →
      ∀ i ∈ doc.Interface, correlate env interfaces i ≠ none →
        ∀ sn ∈ i.IPSubnet, ∀ a ∈ sn.IPAddress, a.IsPrimary = false → env.parseIP a.Address = [] →
          (refresh env s w).result = Result.returned none ∧
          Call.record [] ∈ calls (refresh env s w).trace ∧
          Event.setAddressSpace sp ∈ (refresh env s w).trace) := by
  refine ⟨fun pre post ap ip e htr => refresh_build_fatal env s w pre post _ e htr rfl rfl, ?_⟩
  intro sink interfaces sp w1 doc hreach hparse hclean i hi hc sn hsn a ha hp hnil
  have hparse2 := workItems_parse env interfaces doc hparse
  obtain ⟨h1, h2, -, -, h5⟩ := refresh_populates env s w sink interfaces sp w1 doc hreach hparse2
    (clean_walk_of_clean_refresh env s w sink interfaces sp w1 doc hreach hclean)
  refine ⟨h1, ?_, by rw [h5]; simp⟩
  rw [h2, populationCalls]
  cases hcor : correlate env interfaces i with
  | none => exact absurd hcor hc
  | some np =>
    have hit : (⟨np.1, np.2, sn⟩ : Item) ∈ workItems env interfaces doc :=
      (mem_workItems env interfaces doc _).2 ⟨i, hi, sn, hsn, hcor, rfl⟩
    have := mem_expectedCalls_record env _ _ a hit (hparse2 _ hit) ha hp
    rw [hnil] at this
    simp [this]

/-- A sink that refuses the nil address: the refresh of the document with the
literal `10.0.0.256` returns the error of the sink right after that record call
and activates nothing. A sink that accepts every request: the refresh returns
nil, the record call for the nil address is among its calls, and the space is
activated. -/
theorem refresh_invalid_address_witness :
    ((refresh (scenarioEnv invalidAddressDoc) (startedSource strictSink) 0).result =
        Result.returned (some (Error.other 5)) ∧
      Event.setAddressSpace 1 ∉
        (refresh (scenarioEnv invalidAddressDoc) (startedSource strictSink) 0).trace) ∧
    ((refresh (scenarioEnv invalidAddressDoc) (startedSource countingSink) 0).result =
        Result.returned none ∧
      Call.record [] ∈
        calls (refresh (scenarioEnv invalidAddressDoc) (startedSource countingSink) 0).trace ∧
      Event.setAddressSpace 1 ∈
        (refresh (scenarioEnv invalidAddressDoc) (startedSource countingSink) 0).trace) :=
  have h := (refresh_invalid_address (scenarioEnv invalidAddressDoc) (startedSource strictSink)
    0).1
    [Event.netInterfaces, Event.newAddressSpace "LocalDefaultAddressSpace" "local" 1 none,
      Event.httpGet azureQueryUrl, Event.xmlDecode,
      Event.newAddressPool 1 "eth0" 0 ⟨[10, 0, 0, 0], [255, 255, 255, 0]⟩ 2 none]
    [Event.bodyClose] 2 [] (Error.other 5) (by decide)
  have h2 := (refresh_invalid_address (scenarioEnv invalidAddressDoc)
    (startedSource countingSink) 0).2 countingSink
    [⟨"lo", []⟩, ⟨"eth0", [0x00, 0x11, 0x22, 0x33, 0x44, 0x55]⟩] 1 1 invalidAddressDoc
    ⟨by decide, rfl, rfl, rfl, "<Interfaces/>", rfl, rfl⟩
    (by simp [invalidAddressDoc, scenarioEnv])
    (by unfold clean; decide)
    ⟨"001122334455", true,
      [⟨"10.0.0.0/24", [⟨"10.0.0.256", false⟩, ⟨"10.0.0.5", false⟩]⟩]⟩
    (by decide) (by decide)
    ⟨"10.0.0.0/24", [⟨"10.0.0.256", false⟩, ⟨"10.0.0.5", false⟩]⟩ (by decide)
    ⟨"10.0.0.256", false⟩ (by decide) rfl rfl
  ⟨⟨h.1, h.2.2 1⟩, h2⟩

/-- C5 fails on the code: with a sink that accepts every request, the refresh of
the document whose non-primary address `10.0.0.256` does not parse returns nil; it
requests a record for the nil address, goes on to the next address, and activates
the space. -/
theorem refresh_records_unparsable_address :
    (refresh (scenarioEnv invalidAddressDoc) (startedSource countingSink) 0).result =
      Result.returned none ∧
    (scenarioEnv invalidAddressDoc).parseIP "10.0.0.256" = [] ∧
    calls (refresh (scenarioEnv invalidAddressDoc) (startedSource countingSink) 0).trace =
      [Call.space "LocalDefaultAddressSpace" "local",
       Call.pool "eth0" 0 ⟨[10, 0, 0, 0], [255, 255, 255, 0]⟩,
       Call.record [],
       Call.record [10, 0, 0, 5],
       Call.activate] := by
  decide

/-- C10. Invalid subnet is fatal. Let the subnets of the correlated interfaces, in
document order, be `good ++ bad :: rest`, where every prefix of `good` parses and
the prefix of `bad` does not. Then a refresh that reaches the document never
returns nil and never activates the space, and its pool and record calls are an
initial segment of the calls for `good`: none is made for `bad` or for a later
subnet or interface. When no sink call of the refresh fails, refresh returns the
parse error of `bad`, after exactly `newAddressSpace` and the pool and record
calls of the subnets of `good`. -/
theorem refresh_invalid_subnet (env : Env) (s : azureSource σ) (w : σ)
    (sink : addressConfigSink σ) (interfaces : List NetInterface) (sp : addressSpace)
    (w1 : σ) (doc : xmlDocument) (good rest : List Item) (bad : Item) (e : Error)
    (hreach : Reaches env s w sink interfaces sp w1 doc)
    (hsplit : workItems env interfaces doc = good ++ bad :: rest)
    (hgood : ∀ g ∈ good, g.Parses env)
    (hbad : env.parseCIDR bad.subnet.Prefix = .error e) :
    (refresh env s w).result ≠ Result.returned none ∧
    (∀ sp2, Event.setAddressSpace sp2 ∉ (refresh env s w).trace) ∧
    calls (refresh env s w).trace <+:
      Call.space env.localDefaultAddressSpaceId env.localScope :: expectedCalls env good ∧
    (clean (refresh env s w).trace →
      (refresh env s w).result = Result.returned (some e) ∧
      calls (refresh env s w).trace =
        Call.space env.localDefaultAddressSpaceId env.localScope :: expectedCalls env good) := by
  have hr := refresh_of_reaches env s w sink interfaces sp w1 doc hreach
  have hinv := runItems_invalid env sink sp good rest bad w1 e hbad
  rw [hsplit, hinv] at hr
  have hcalls := runItems_calls env sink sp good w1
  have hfatal := runItems_fatal env sink sp good w1
  have hno := runItems_no_activation env sink sp good w1
  cases hg : (runItems env sink sp good w1).err with
  | some e1 =>
    rw [Step.seq_of_err hg] at hr
    simp only at hr
    rw [hg] at hfatal
    rw [hr]
    refine ⟨by simp, fun sp2 hm => ?_, ?_, fun hclean => ?_⟩
    · simp only [List.mem_append, List.mem_singleton] at hm
      rcases hm with (h | h) | h
      · exact preamble_no_activation env sp sp2 h
      · exact hno sp2 h
      · cases h
    · simp only [calls_append, calls_preamble]
      have : calls [Event.bodyClose] = [] := rfl
      rw [this, List.append_nil]
      exact (List.prefix_cons_inj _).2 hcalls.1
    · exfalso
      have hc2 : clean (runItems env sink sp good w1).trace :=
        (clean_append.1 (clean_append.1 hclean).1).2
      rcases hfatal with h | ⟨-, g2, b2, r2, h2, -, h4, -⟩
      · exact h.not_clean hc2
      · obtain ⟨subnet, hs⟩ := hgood b2 (by rw [h2]; simp)
        rw [hs] at h4
        cases h4
  | none =>
    rw [Step.seq_of_ok hg] at hr
    simp only [List.append_nil] at hr
    rw [hr]
    have hc := (hcalls.2 hg).1
    have hcs : calls (preamble env sp ++ (runItems env sink sp good w1).trace ++
        [Event.bodyClose]) =
        Call.space env.localDefaultAddressSpaceId env.localScope :: expectedCalls env good := by
      simp only [calls_append, calls_preamble, hc]
      simp [calls, Event.call]
    refine ⟨by simp, fun sp2 hm => ?_, ?_, fun _ => ⟨rfl, hcs⟩⟩
    · simp only [List.mem_append, List.mem_singleton] at hm
      rcases hm with (h | h) | h
      · exact preamble_no_activation env sp sp2 h
      · exact hno sp2 h
      · cases h
    · rw [hcs]

/-- The document whose second subnet is `10.0.1.0/33`: the refresh returns the
parse error after the pool and the record of the first subnet; nothing is
requested for the second and the third subnet. -/
theorem refresh_invalid_subnet_witness :
    (refresh (scenarioEnv invalidSubnetDoc) (startedSource countingSink) 0).result =
      Result.returned (some (Error.other 1)) ∧
    calls (refresh (scenarioEnv invalidSubnetDoc) (startedSource countingSink) 0).trace =
      [Call.space "LocalDefaultAddressSpace" "local",
       Call.pool "eth0" 1 ⟨[10, 0, 0, 0], [255, 255, 255, 0]⟩,
       Call.record [10, 0, 0, 5]] :=
  have h := refresh_invalid_subnet (scenarioEnv invalidSubnetDoc) (startedSource countingSink)
    0 countingSink [⟨"lo", []⟩, ⟨"eth0", [0x00, 0x11, 0x22, 0x33, 0x44, 0x55]⟩] 1 1
    invalidSubnetDoc
    [⟨"eth0", 1, ⟨"10.0.0.0/24", [⟨"10.0.0.5", false⟩]⟩⟩]
    [⟨"eth0", 1, ⟨"10.0.1.0/24", [⟨"10.0.1.5", false⟩]⟩⟩]
    ⟨"eth0", 1, ⟨"10.0.1.0/33", [⟨"10.0.1.5", false⟩]⟩⟩ (Error.other 1)
    ⟨by decide, rfl, rfl, rfl, "<Interfaces/>", rfl, rfl⟩
    (by decide)
    (by simp [Item.Parses, scenarioEnv])
    rfl
  have h2 := h.2.2.2 (by unfold clean; decide)
  ⟨h2.1, h2.2.trans (by decide)⟩

end Errors

section Exists

variable {σ : Type}

theorem Step.mapTrace_seq (f : Event → Event) (r : Step σ) (k : σ → Step σ) :
    (r.seq k).mapTrace f = (r.mapTrace f).seq fun w => (k w).mapTrace f := by
  cases h : r.err with
  | some e => simp [Step.seq, Step.mapTrace, h]
  | none => simp [Step.seq, Step.mapTrace, h]

theorem refreshAddresses_existsAsCreated (env : Env) (sink : addressConfigSink σ)
    (ap : addressPool) (addrs : List xmlIPAddress) (w : σ) :
    refreshAddresses env (existsAsCreated sink) ap addrs w =
      refreshAddresses env sink ap addrs w := by
  induction addrs generalizing w with
  | nil => rfl
  | cons a rest ih =>
    rcases refreshAddresses_cases env sink ap a rest w with
      ⟨hp, h⟩ | ⟨e, w1, hp, hs, h⟩ | ⟨w1, hp, hs, h⟩
    · rw [h, refreshAddresses_primary env _ ap a rest w hp]
      exact ih w
    · rw [h, refreshAddresses_rejected env (existsAsCreated sink) ap a rest w w1 e hp hs]
    · rw [h, refreshAddresses_recorded env (existsAsCreated sink) ap a rest w w1 hp hs, ih]

theorem refreshAddresses_withoutExists (env : Env) (sink : addressConfigSink σ)
    (ap : addressPool) (addrs : List xmlIPAddress) (w : σ) :
    (refreshAddresses env sink ap addrs w).trace.map Event.withoutExists =
      (refreshAddresses env sink ap addrs w).trace := by
  have : ∀ ev ∈ (refreshAddresses env sink ap addrs w).trace, Event.withoutExists ev = id ev := by
    intro ev hev
    obtain ⟨a, -, -, err, w0, w1, -, rfl⟩ := refreshAddresses_events env sink ap addrs w ev hev
    rfl
  rw [List.map_congr_left this, List.map_id]

theorem refreshSubnet_existsAsCreated (env : Env) (sink : addressConfigSink σ)
    (sp : addressSpace) (ifName : String) (priority : Int) (s : xmlIPSubnet) (w : σ) :
    refreshSubnet env (existsAsCreated sink) sp ifName priority s w =
      (refreshSubnet env sink sp ifName priority s w).mapTrace Event.withoutExists := by
  rcases refreshSubnet_cases env sink sp ifName priority s w with
    ⟨e, hc, h⟩ | ⟨subnet, ap, e, w1, hc, hs, he, h⟩ | ⟨subnet, ap, err, w1, hc, hs, he, h⟩
  · rw [h, refreshSubnet_invalid env _ sp ifName priority s w e hc]
    rfl
  · have hs2 : (existsAsCreated sink).newAddressPool sp ifName priority subnet w =
        ((ap, some e), w1) := by
      simp [existsAsCreated, hs, he]
    rw [h, refreshSubnet_failed env _ sp ifName priority s w w1 subnet ap e hc hs2 he]
    simp [Step.mapTrace, Event.withoutExists, he]
  · have hs2 : (existsAsCreated sink).newAddressPool sp ifName priority subnet w =
        ((ap, none), w1) := by
      rcases he with rfl | rfl <;> simp [existsAsCreated, hs]
    rw [h, refreshSubnet_pooled env _ sp ifName priority s w w1 subnet ap none hc hs2
      (Or.inl rfl), refreshAddresses_existsAsCreated]
    simp only [Step.mapTrace, Step.after, List.map_cons, refreshAddresses_withoutExists]
    rcases he with rfl | rfl <;> simp [Event.withoutExists]

theorem runItems_existsAsCreated (env : Env) (sink : addressConfigSink σ)
    (sp : addressSpace) (items : List Item) (w : σ) :
    runItems env (existsAsCreated sink) sp items w =
      (runItems env sink sp items w).mapTrace Event.withoutExists := by
  induction items generalizing w with
  | nil => rfl
  | cons it rest ih =>
    simp only [runItems, Step.mapTrace_seq, refreshSubnet_existsAsCreated]
    congr 1
    funext w1
    exact ih w1

theorem Reaches.existsAsCreated {env : Env} {s : azureSource σ} {w : σ}
    {sink : addressConfigSink σ} {interfaces : List NetInterface} {sp : addressSpace}
    {w1 : σ} {doc : xmlDocument} (h : Reaches env s w sink interfaces sp w1 doc) :
    Reaches env { s with sink := some (existsAsCreated sink) } w (existsAsCreated sink)
      interfaces sp w1 doc := by
  obtain ⟨h1, h2, h3, h4, h5⟩ := h
  exact ⟨h1, h2, rfl, h4, h5⟩

/-- A pool that already exists is handled as a pool just created. -/
theorem refresh_existsAsCreated (env : Env) (s : azureSource σ) (w : σ)
    (sink : addressConfigSink σ) (hs : s.sink = some sink) :
    (refresh env { s with sink := some (existsAsCreated sink) } w).result =
      (refresh env s w).result ∧
    (refresh env { s with sink := some (existsAsCreated sink) } w).world =
      (refresh env s w).world ∧
    (refresh env { s with sink := some (existsAsCreated sink) } w).trace =
      (refresh env s w).trace.map Event.withoutExists := by
  rcases refresh_cases env s w with ⟨h1, h3⟩ | ⟨h1, h2⟩
  · rw [h3, refresh_throttled env { s with sink := some (existsAsCreated sink) } w h1]
    simp
  · rcases h2 with ⟨e, h2, h3⟩ | ⟨i, -, h2, h3⟩ | ⟨sink2, i, sp1, e, w1, h7, h2, h4, h3⟩ |
      ⟨sink2, i, sp1, e, w1, h7, h2, h4, h5, h3⟩ |
      ⟨sink2, i, sp1, e, w1, body, h7, h2, h4, h5, h6, h3⟩ |
      ⟨sink2, i, sp1, w1, doc, hreach⟩
    · rw [h3]
      simp [refresh, h1, h2, Event.withoutExists]
    · rw [hs] at h2
      cases h2
    · rw [hs] at h2
      cases h2
      have h4b : (existsAsCreated sink).newAddressSpace env.localDefaultAddressSpaceId
          env.localScope w = ((sp1, some e), w1) := h4
      rw [h3]
      simp [refresh, h1, h7, h4b, Event.withoutExists]
    · rw [hs] at h2
      cases h2
      have h4b : (existsAsCreated sink).newAddressSpace env.localDefaultAddressSpaceId
          env.localScope w = ((sp1, none), w1) := h4
      rw [h3]
      simp [refresh, h1, h7, h4b, h5, Event.withoutExists]
    · rw [hs] at h2
      cases h2
      have h4b : (existsAsCreated sink).newAddressSpace env.localDefaultAddressSpaceId
          env.localScope w = ((sp1, none), w1) := h4
      rw [h3]
      simp [refresh, h1, h7, h4b, h5, h6, Event.withoutExists, preamble]
    · have hs2 := hreach.2.2.1
      rw [hs] at hs2
      cases hs2
      rw [refresh_of_reaches env s w sink i sp1 w1 doc hreach,
        refresh_of_reaches env _ w _ i sp1 w1 doc hreach.existsAsCreated,
        runItems_existsAsCreated]
      cases herr : (runItems env sink sp1 (workItems env i doc) w1).err with
      | some e =>
        simp [Step.mapTrace, herr, preamble, Event.withoutExists]
      | none =>
        simp [Step.mapTrace, herr, preamble, Event.withoutExists, existsAsCreated]

/-- C7. Idempotent pool creation. (1) A sink that answers `errAddressExists` to a
pool request, returning the existing pool, is treated exactly as a sink that
answers nil with that pool: the refresh has the same result, leaves the address
manager in the same state and makes the same calls with the same arguments, the
records on the same pools. (2) When pool creation reports at most
`errAddressExists`, record creation never fails and every prefix parses, refresh
returns nil after the calls of a full population: every non-primary address of
every subnet is recorded on the pool returned for its subnet, later subnets are
processed and the space is activated. (3) A pool request that returns any other
error is the last call on the sink: refresh returns that error, no address of the
subnet is recorded and the space is not activated. -/
theorem refresh_pool_exists (env : Env) (s : azureSource σ) (w : σ)
    (sink : addressConfigSink σ) (hs : s.sink = some sink) :
    ((refresh env { s with sink := some (existsAsCreated sink) } w).result =
        (refresh env s w).result ∧
      (refresh env { s with sink := some (existsAsCreated sink) } w).world =
        (refresh env s w).world ∧
      (refresh env { s with sink := some (existsAsCreated sink) } w).trace =
        (refresh env s w).trace.map Event.withoutExists) ∧
    (∀ interfaces sp w1 doc, Reaches env s w sink interfaces sp w1 doc →
      (∀ i ∈ doc.Interface, correlate env interfaces i ≠ none →
        ∀ sn ∈ i.IPSubnet, ∃ subnet, env.parseCIDR sn.Prefix = .ok subnet) →
      (∀ sp n p net w0, (sink.newAddressPool sp n p net w0).1.2 = none ∨
        (sink.newAddressPool sp n p net w0).1.2 = some Error.errAddressExists) →
      (∀ ap ip w0, (sink.newAddressRecord ap ip w0).1 = none) →
      (refresh env s w).result = Result.returned none ∧
      calls (refresh env s w).trace = populationCalls env interfaces doc ∧
      recordsOnLatestPool none (refresh env s w).trace = true ∧
      Event.setAddressSpace sp ∈ (refresh env s w).trace) ∧
    (∀ pre post sp n p net ap e,
      (refresh env s w).trace = pre ++ Event.newAddressPool sp n p net ap (some e) :: post →
      e ≠ Error.errAddressExists →
      (refresh env s w).result = Result.returned (some e) ∧ post = [Event.bodyClose] ∧
        ∀ sp2, Event.setAddressSpace sp2 ∉ (refresh env s w).trace) := by
  refine ⟨refresh_existsAsCreated env s w sink hs, ?_, ?_⟩
  · intro interfaces sp w1 doc hreach hparse hpool hrec
    obtain ⟨h1, h2, h3, -, h5⟩ := refresh_populates env s w sink interfaces sp w1 doc hreach
      (workItems_parse env interfaces doc hparse)
      (runItems_clean env sink sp (workItems env interfaces doc) w1 hpool hrec)
    exact ⟨h1, h2, h3, by rw [h5]; simp⟩
  · intro pre post sp n p net ap e htr he
    exact refresh_build_fatal env s w pre post _ e htr rfl (by simp [Event.fatal, he])

/-- The scenario on a sink in which the pool already exists as pool 9: the refresh
returns nil, records `10.0.0.5` on pool 9 and activates the space. On a sink whose
pool creation fails with another error the refresh returns that error. -/
theorem refresh_pool_exists_witness :
    ((refresh (scenarioEnv (scenarioDoc "001122334455")) (startedSource existingSink)
        0).result = Result.returned none ∧
      (refresh (scenarioEnv (scenarioDoc "001122334455")) (startedSource existingSink)
        0).trace =
        [Event.netInterfaces,
         Event.newAddressSpace "LocalDefaultAddressSpace" "local" 1 none,
         Event.httpGet azureQueryUrl,
         Event.xmlDecode,
         Event.newAddressPool 1 "eth0" 0 ⟨[10, 0, 0, 0], [255, 255, 255, 0]⟩ 9
           (some Error.errAddressExists),
         Event.newAddressRecord 9 [10, 0, 0, 5] none,
         Event.setAddressSpace 1,
         Event.bodyClose]) ∧
    (refresh (scenarioEnv (scenarioDoc "001122334455")) (startedSource failingSink)
      0).result = Result.returned (some (Error.other 3)) :=
  have h := (refresh_pool_exists (scenarioEnv (scenarioDoc "001122334455"))
    (startedSource existingSink) 0 existingSink rfl).2.1
    [⟨"lo", []⟩, ⟨"eth0", [0x00, 0x11, 0x22, 0x33, 0x44, 0x55]⟩] 1 1
    (scenarioDoc "001122334455")
    ⟨by decide, rfl, rfl, rfl, "<Interfaces/>", rfl, rfl⟩
    (by simp [scenarioDoc, scenarioEnv])
    (fun _ _ _ _ _ => Or.inr rfl) (fun _ _ _ => rfl)
  have h2 := (refresh_pool_exists (scenarioEnv (scenarioDoc "001122334455"))
    (startedSource failingSink) 0 failingSink rfl).2.2
    [Event.netInterfaces, Event.newAddressSpace "LocalDefaultAddressSpace" "local" 1 none,
      Event.httpGet azureQueryUrl, Event.xmlDecode]
    [Event.bodyClose] 1 "eth0" 0 ⟨[10, 0, 0, 0], [255, 255, 255, 0]⟩ 0 (Error.other 3)
    (by decide) (by decide)
  ⟨⟨h.1, by decide⟩, h2.1⟩

end Exists

section Entries

variable {σ : Type}

theorem recordedAddresses_append (t1 t2 : List Event) :
    recordedAddresses (t1 ++ t2) = recordedAddresses t1 ++ recordedAddresses t2 := by
  simp [recordedAddresses]

theorem refreshAddresses_recorded_sublist (env : Env) (sink : addressConfigSink σ)
    (ap : addressPool) (addrs : List xmlIPAddress) (w : σ) :
    List.Sublist (recordedAddresses (refreshAddresses env sink ap addrs w).trace)
      (nonPrimaryAddresses env addrs) := by
  induction addrs generalizing w with
  | nil => simp [refreshAddresses, recordedAddresses]
  | cons a rest ih =>
    rcases refreshAddresses_cases env sink ap a rest w with
      ⟨hp, h⟩ | ⟨e, w1, hp, -, h⟩ | ⟨w1, hp, -, h⟩
    · rw [h]
      have : nonPrimaryAddresses env (a :: rest) = nonPrimaryAddresses env rest := by
        simp [nonPrimaryAddresses, hp]
      rw [this]
      exact ih w
    · rw [h]
      have : nonPrimaryAddresses env (a :: rest) =
          env.parseIP a.Address :: nonPrimaryAddresses env rest := by
        simp [nonPrimaryAddresses, hp]
      rw [this]
      simp [recordedAddresses]
    · rw [h]
      have : nonPrimaryAddresses env (a :: rest) =
          env.parseIP a.Address :: nonPrimaryAddresses env rest := by
        simp [nonPrimaryAddresses, hp]
      rw [this]
      simp only [Step.after, recordedAddresses, List.filterMap_cons]
      exact (ih w1).cons₂ _

theorem refreshSubnet_recorded_sublist (env : Env) (sink : addressConfigSink σ)
    (sp : addressSpace) (it : Item) (w : σ) :
    List.Sublist
      (recordedAddresses (refreshSubnet env sink sp it.ifName it.priority it.subnet w).trace)
      (nonPrimaryAddresses env it.subnet.IPAddress) := by
  rcases refreshSubnet_cases env sink sp it.ifName it.priority it.subnet w with
    ⟨e, hc, h⟩ | ⟨subnet, ap, e, w1, hc, -, -, h⟩ | ⟨subnet, ap, err, w1, hc, -, -, h⟩
  · rw [h]
    simp [recordedAddresses]
  · rw [h]
    simp [recordedAddresses]
  · rw [h]
    simp only [Step.after, recordedAddresses, List.filterMap_cons]
    exact refreshAddresses_recorded_sublist env sink ap _ w1

theorem runItems_recorded_sublist (env : Env) (sink : addressConfigSink σ)
    (sp : addressSpace) (items : List Item) (w : σ) :
    List.Sublist (recordedAddresses (runItems env sink sp items w).trace)
      (items.flatMap fun it => nonPrimaryAddresses env it.subnet.IPAddress) := by
  induction items generalizing w with
  | nil => simp [runItems, recordedAddresses]
  | cons it rest ih =>
    have hit := refreshSubnet_recorded_sublist env sink sp it w
    simp only [runItems, List.flatMap_cons]
    cases hr : (refreshSubnet env sink sp it.ifName it.priority it.subnet w).err with
    | some e =>
      rw [Step.seq_of_err hr]
      exact hit.trans (List.sublist_append_left _ _)
    | none =>
      rw [Step.seq_of_ok hr]
      simp only [recordedAddresses_append]
      exact hit.append (ih _)

theorem documentAddresses_cons (i : xmlInterface) (is : List xmlInterface) :
    documentAddresses ⟨i :: is⟩ =
      (i.IPSubnet.flatMap fun s => s.IPAddress) ++ documentAddresses ⟨is⟩ := by
  simp [documentAddresses]

theorem nonPrimaryAddresses_append (env : Env) (xs ys : List xmlIPAddress) :
    nonPrimaryAddresses env (xs ++ ys) =
      nonPrimaryAddresses env xs ++ nonPrimaryAddresses env ys := by
  simp [nonPrimaryAddresses]

theorem subnets_nonPrimary (env : Env) (n : String) (p : Int) (sns : List xmlIPSubnet) :
    ((sns.map fun s => (⟨n, p, s⟩ : Item)).flatMap fun it =>
        nonPrimaryAddresses env it.subnet.IPAddress) =
      nonPrimaryAddresses env (sns.flatMap fun s => s.IPAddress) := by
  induction sns with
  | nil => simp [nonPrimaryAddresses]
  | cons s rest ih =>
    simp only [List.map_cons, List.flatMap_cons, nonPrimaryAddresses_append, ih]

/-- The non-primary addresses of the subnets of the correlated interfaces are
among the non-primary address entries of the document, in the same order. -/
theorem workItems_nonPrimary_sublist (env : Env) (interfaces : List NetInterface)
    (is : List xmlInterface) :
    List.Sublist
      ((workItems env interfaces ⟨is⟩).flatMap fun it =>
        nonPrimaryAddresses env it.subnet.IPAddress)
      (nonPrimaryAddresses env (documentAddresses ⟨is⟩)) := by
  induction is with
  | nil => simp [workItems, documentAddresses, nonPrimaryAddresses]
  | cons i rest ih =>
    rw [documentAddresses_cons, nonPrimaryAddresses_append]
    have hw : workItems env interfaces ⟨i :: rest⟩ =
        interfaceItems env interfaces i ++ workItems env interfaces ⟨rest⟩ := by
      simp [workItems]
    rw [hw, List.flatMap_append]
    refine List.Sublist.append ?_ ih
    unfold interfaceItems
    cases correlate env interfaces i with
    | none => simp
    | some np =>
      simp only
      rw [subnets_nonPrimary]

theorem mem_documentAddresses (doc : xmlDocument) (a : xmlIPAddress) :
    a ∈ documentAddresses doc ↔ ∃ i ∈ doc.Interface, ∃ sn ∈ i.IPSubnet, a ∈ sn.IPAddress := by
  simp only [documentAddresses, List.mem_flatMap]

theorem mem_recordedAddresses (tr : List Event) (ip : IP) :
    ip ∈ recordedAddresses tr ↔ ∃ ap err, Event.newAddressRecord ap ip err ∈ tr := by
  simp only [recordedAddresses, List.mem_filterMap]
  constructor
  · rintro ⟨ev, hev, h⟩
    cases ev <;> simp at h
    subst h
    exact ⟨_, _, hev⟩
  · rintro ⟨ap, err, h⟩
    exact ⟨_, h, rfl⟩

/-- C8. Primary exclusion. On every path through refresh, whatever the sink does,
the addresses passed to `newAddressRecord`, in the order of the calls, are a
subsequence of the parsed non-primary address entries of the decoded document in
document order: each record call is accounted for by an entry of its own whose
primary flag is false, so that no call is made for an entry marked primary (a
document whose entries are all primary gives no record call). Without a decoded
document no record call is made. -/
theorem refresh_primary_exclusion (env : Env) (s : azureSource σ) (w : σ) :
    (∀ body doc, env.httpGet azureQueryUrl = .ok body → env.xmlDecode body = .ok doc →
      List.Sublist (recordedAddresses (refresh env s w).trace)
        (nonPrimaryAddresses env (documentAddresses doc))) ∧
    (∀ ap ip err, Event.newAddressRecord ap ip err ∈ (refresh env s w).trace →
      ∃ body doc, env.httpGet azureQueryUrl = .ok body ∧ env.xmlDecode body = .ok doc ∧
        ∃ i ∈ doc.Interface, ∃ sn ∈ i.IPSubnet, ∃ a ∈ sn.IPAddress,
          a.IsPrimary = false ∧ ip = env.parseIP a.Address) ∧
    (∀ body doc, env.httpGet azureQueryUrl = .ok body → env.xmlDecode body = .ok doc →
      (∀ a ∈ documentAddresses doc, a.IsPrimary = true) →
      ∀ ap ip err, Event.newAddressRecord ap ip err ∉ (refresh env s w).trace) := by
  have key : recordedAddresses (refresh env s w).trace = [] ∨
      ∃ body doc, env.httpGet azureQueryUrl = .ok body ∧ env.xmlDecode body = .ok doc ∧
        List.Sublist (recordedAddresses (refresh env s w).trace)
          (nonPrimaryAddresses env (documentAddresses doc)) := by
    rcases refresh_cases env s w with ⟨-, h3⟩ | ⟨-, h2⟩
    · rw [h3]; exact Or.inl rfl
    · rcases h2 with ⟨e, -, h3⟩ | ⟨i, -, -, h3⟩ | ⟨sink, ifs, sp1, e, w1, -, -, -, h3⟩ |
        ⟨sink, ifs, sp1, e, w1, -, -, -, -, h3⟩ |
        ⟨sink, ifs, sp1, e, w1, body, -, -, -, -, -, h3⟩ |
        ⟨sink, i, sp1, w1, doc, hreach⟩
      · rw [h3]; exact Or.inl rfl
      · rw [h3]; exact Or.inl rfl
      · rw [h3]; exact Or.inl rfl
      · rw [h3]; exact Or.inl rfl
      · rw [h3]; exact Or.inl rfl
      · obtain ⟨tail, htail, ht⟩ := refresh_trace_of_reaches env s w sink i sp1 w1 doc hreach
        obtain ⟨-, -, -, -, body, hb, hd⟩ := hreach
        refine Or.inr ⟨body, doc, hb, hd, ?_⟩
        rw [ht]
        have h1 : recordedAddresses (preamble env sp1) = [] := rfl
        have h2 : recordedAddresses tail = [] := by
          rcases htail with rfl | rfl <;> rfl
        simp only [recordedAddresses_append, h1, h2, List.nil_append, List.append_nil]
        exact (runItems_recorded_sublist env sink sp1 _ w1).trans
          (workItems_nonPrimary_sublist env i doc.Interface)
  have sub : ∀ body doc, env.httpGet azureQueryUrl = .ok body → env.xmlDecode body = .ok doc →
      List.Sublist (recordedAddresses (refresh env s w).trace)
        (nonPrimaryAddresses env (documentAddresses doc)) := by
    intro body doc hb hd
    rcases key with h | ⟨body2, doc2, hb2, hd2, h⟩
    · rw [h]; exact List.nil_sublist _
    · rw [hb] at hb2
      cases hb2
      rw [hd] at hd2
      cases hd2
      exact h
  refine ⟨sub, ?_, ?_⟩
  · intro ap ip err hmem
    have hip : ip ∈ recordedAddresses (refresh env s w).trace :=
      (mem_recordedAddresses _ ip).2 ⟨ap, err, hmem⟩
    rcases key with h | ⟨body, doc, hb, hd, h⟩
    · rw [h] at hip
      cases hip
    · have := h.subset hip
      simp only [nonPrimaryAddresses, List.mem_map, List.mem_filter] at this
      obtain ⟨a, ⟨ha, hp⟩, rfl⟩ := this
      obtain ⟨i, hi, sn, hsn, ha2⟩ := (mem_documentAddresses doc a).1 ha
      exact ⟨body, doc, hb, hd, i, hi, sn, hsn, a, ha2, by simpa using hp, rfl⟩
  · intro body doc hb hd hall ap ip err hmem
    have hip : ip ∈ recordedAddresses (refresh env s w).trace :=
      (mem_recordedAddresses _ ip).2 ⟨ap, err, hmem⟩
    have := (sub body doc hb hd).subset hip
    simp only [nonPrimaryAddresses, List.mem_map, List.mem_filter] at this
    obtain ⟨a, ⟨ha, hp⟩, -⟩ := this
    rw [hall a ha] at hp
    simp at hp

/-- The scenario: the only record call is for `10.0.0.5`; none is made for the
primary address `10.0.0.4`. -/
theorem refresh_primary_exclusion_witness :
    List.Sublist
      (recordedAddresses (refresh (scenarioEnv (scenarioDoc "001122334455"))
        (startedSource countingSink) 0).trace)
      [[10, 0, 0, 5]] :=
  (refresh_primary_exclusion (scenarioEnv (scenarioDoc "001122334455"))
    (startedSource countingSink) 0).1 "<Interfaces/>" (scenarioDoc "001122334455") rfl rfl

theorem correlate_priority (env : Env) (interfaces : List NetInterface) (i : xmlInterface)
    (n : String) (p : Int) (h : correlate env interfaces i = some (n, p)) :
    p = if i.IsPrimary then 0 else 1 := by
  unfold correlate at h
  cases hm : matchingInterface env interfaces (ToLower env.unicodeToLower i.MacAddress) with
  | none => simp [hm] at h
  | some iface =>
    simp only [hm] at h
    split at h
    · cases h
    · simp only [Option.some.injEq, Prod.mk.injEq, interfacePriority] at h
      exact h.2.symm

/-- Every pool call of a refresh belongs to a subnet of a correlated document
interface and carries the priority of that interface. -/
theorem pool_event_origin (env : Env) (s : azureSource σ) (w : σ) :
    ∀ sp n p net ap err, Event.newAddressPool sp n p net ap err ∈ (refresh env s w).trace →
      ∃ interfaces body doc, env.netInterfaces = .ok interfaces ∧
        env.httpGet azureQueryUrl = .ok body ∧ env.xmlDecode body = .ok doc ∧
        ∃ i ∈ doc.Interface, ∃ sn ∈ i.IPSubnet,
          correlate env interfaces i = some (n, p) ∧ env.parseCIDR sn.Prefix = .ok net ∧
          p = if i.IsPrimary then 0 else 1 := by
  intro sp n p net ap err hmem
  rcases refresh_cases env s w with ⟨-, h3⟩ | ⟨-, h2⟩
  · rw [h3] at hmem; simp at hmem
  · rcases h2 with ⟨e, -, h3⟩ | ⟨i, -, -, h3⟩ | ⟨sink, ifs, sp1, e, w1, -, -, -, h3⟩ |
      ⟨sink, ifs, sp1, e, w1, -, -, -, -, h3⟩ |
      ⟨sink, ifs, sp1, e, w1, body, -, -, -, -, -, h3⟩ |
      ⟨sink, i, sp1, w1, doc, hreach⟩
    · rw [h3] at hmem; simp at hmem
    · rw [h3] at hmem; simp at hmem
    · rw [h3] at hmem; simp at hmem
    · rw [h3] at hmem; simp at hmem
    · rw [h3] at hmem; simp [preamble] at hmem
    · obtain ⟨tail, htail, ht⟩ := refresh_trace_of_reaches env s w sink i sp1 w1 doc hreach
      rw [ht] at hmem
      have hin : Event.newAddressPool sp n p net ap err ∈
          (runItems env sink sp1 (workItems env i doc) w1).trace := by
        simp only [List.mem_append] at hmem
        rcases hmem with (h | h) | h
        · simp [preamble] at h
        · exact h
        · rcases htail with rfl | rfl <;> simp at h
      obtain ⟨it, hit, h | h⟩ := runItems_events env sink sp1 _ w1 _ hin
      · obtain ⟨subnet, ap2, err2, w0, w2, hc, -, heq⟩ := h
        cases heq
        obtain ⟨di, hdi, sn, hsn, hcor, rfl⟩ := (mem_workItems env i doc it).1 hit
        obtain ⟨-, hi2, -, -, body, hb, hd⟩ := hreach
        exact ⟨i, body, doc, hi2, hb, hd, di, hdi, it.subnet, hsn, hcor, hc,
          correlate_priority env i di _ _ hcor⟩
      · obtain ⟨a, -, -, ap2, err2, w0, w2, -, heq⟩ := h
        cases heq

theorem findInterface_priority (env : Env) (mac : String) (isPrimary : Bool)
    (interfaces : List NetInterface) (h : (findInterface env mac isPrimary interfaces).1 ≠ "") :
    (findInterface env mac isPrimary interfaces).2 = if isPrimary then 0 else 1 := by
  rw [findInterface_eq] at h ⊢
  cases hm : matchingInterface env interfaces mac with
  | none => simp [hm] at h
  | some iface => simp

theorem requestedPools_append (t1 t2 : List Event) :
    requestedPools (t1 ++ t2) = requestedPools t1 ++ requestedPools t2 := by
  simp [requestedPools]

theorem requestedPools_eq_calls (tr : List Event) :
    requestedPools tr = (calls tr).filterMap Call.poolKey := by
  induction tr with
  | nil => rfl
  | cons ev rest ih =>
    cases ev <;>
      simp [requestedPools, calls, Event.call, Call.poolKey, List.filterMap_cons] at ih ⊢ <;>
      exact ih

theorem recordCalls_poolKey (env : Env) (addrs : List xmlIPAddress) :
    (recordCalls env addrs).filterMap Call.poolKey = [] := by
  simp only [recordCalls, List.filterMap_map, List.filterMap_eq_nil_iff]
  intro a _
  rfl

theorem subnets_poolKey (env : Env) (n : String) (p : Int) (sns : List xmlIPSubnet) :
    ((sns.map fun s => (⟨n, p, s⟩ : Item)).flatMap (itemCalls env)).filterMap Call.poolKey =
      sns.filterMap fun sn =>
        match env.parseCIDR sn.Prefix with
        | .ok subnet => some (n, p, subnet)
        | .error _ => none := by
  induction sns with
  | nil => rfl
  | cons sn rest ih =>
    simp only [List.map_cons, List.flatMap_cons, List.filterMap_append, ih, List.filterMap_cons]
    cases hc : env.parseCIDR sn.Prefix with
    | error e => simp [itemCalls, hc]
    | ok subnet => simp [itemCalls, hc, Call.poolKey, recordCalls_poolKey]

/-- The pool calls of a full walk are the pools of the document: each one under
the priority of the document interface it is made for. -/
theorem expectedCalls_poolKey (env : Env) (interfaces : List NetInterface)
    (is : List xmlInterface) :
    (expectedCalls env (workItems env interfaces ⟨is⟩)).filterMap Call.poolKey =
      poolRequests env interfaces ⟨is⟩ := by
  induction is with
  | nil => rfl
  | cons i rest ih =>
    have hw : workItems env interfaces ⟨i :: rest⟩ =
        interfaceItems env interfaces i ++ workItems env interfaces ⟨rest⟩ := by
      simp [workItems]
    have hp : poolRequests env interfaces ⟨i :: rest⟩ =
        interfacePoolRequests env interfaces i ++ poolRequests env interfaces ⟨rest⟩ := by
      simp [poolRequests]
    rw [hw, hp, expectedCalls, List.flatMap_append, List.filterMap_append]
    congr 1
    unfold interfaceItems correlate interfacePoolRequests
    cases matchingInterface env interfaces (ToLower env.unicodeToLower i.MacAddress) with
    | none => rfl
    | some iface =>
      by_cases hn : iface.Name = ""
      · simp [hn]
      · simp only [hn, if_false, interfacePriority]
        exact subnets_poolKey env iface.Name _ i.IPSubnet

/-- C9. Priority assignment. The `newAddressPool` calls of a refresh, in the order
they are made, are an initial segment of the pools of the decoded document taken
interface by interface and subnet by subnet; all of them when the refresh
returns nil. In that list the pools of a document interface carry priority 0 when
the primary flag of that very interface is true and 1 when it is false, whatever
local interface matched and whatever the subnet: so the k-th pool call has the
priority of the interface the k-th pool is made for. No other priority is ever
passed: every pool call has a correlated document interface with that priority,
and the search for the local interface never leaves another priority with a
name. -/
theorem refresh_pool_priority (env : Env) (s : azureSource σ) (w : σ) :
    (∀ interfaces body doc, env.netInterfaces = .ok interfaces →
      env.httpGet azureQueryUrl = .ok body → env.xmlDecode body = .ok doc →
      requestedPools (refresh env s w).trace <+: poolRequests env interfaces doc ∧
      ((refresh env s w).result = Result.returned none →
        ¬ timeSince env.sinceNow s.lastRefresh < s.minPollPeriod →
        requestedPools (refresh env s w).trace = poolRequests env interfaces doc)) ∧
    (∀ interfaces (i : xmlInterface), ∀ key ∈ interfacePoolRequests env interfaces i,
      key.2.1 = if i.IsPrimary then 0 else 1) ∧
    (∀ sp n p net ap err, Event.newAddressPool sp n p net ap err ∈ (refresh env s w).trace →
      ∃ interfaces body doc, env.netInterfaces = .ok interfaces ∧
        env.httpGet azureQueryUrl = .ok body ∧ env.xmlDecode body = .ok doc ∧
        ∃ i ∈ doc.Interface, ∃ sn ∈ i.IPSubnet,
          correlate env interfaces i = some (n, p) ∧ env.parseCIDR sn.Prefix = .ok net ∧
          p = if i.IsPrimary then 0 else 1) ∧
    (∀ mac isPrimary interfaces, (findInterface env mac isPrimary interfaces).1 ≠ "" →
      (findInterface env mac isPrimary interfaces).2 = if isPrimary then 0 else 1) := by
  refine ⟨?_, ?_, pool_event_origin env s w, findInterface_priority env⟩
  · intro interfaces body doc hi hb hd
    rcases refresh_cases env s w with ⟨h1, h3⟩ | ⟨h1, h2⟩
    · rw [h3]
      exact ⟨List.nil_prefix, fun _ h => absurd h1 h⟩
    · rcases h2 with ⟨e, h4, h3⟩ | ⟨i, -, -, h3⟩ | ⟨sink, ifs, sp1, e, w1, -, -, -, h3⟩ |
        ⟨sink, ifs, sp1, e, w1, -, -, -, h4, h3⟩ |
        ⟨sink, ifs, sp1, e, w1, body2, -, -, -, h4, h5, h3⟩ |
        ⟨sink, i, sp1, w1, doc2, hreach⟩
      · rw [hi] at h4; cases h4
      · rw [h3]; exact ⟨List.nil_prefix, fun h => by simp at h⟩
      · rw [h3]; exact ⟨List.nil_prefix, fun h => by simp at h⟩
      · rw [hb] at h4; cases h4
      · rw [hb] at h4; cases h4
        rw [hd] at h5; cases h5
      · have hr := refresh_of_reaches env s w sink i sp1 w1 doc2 hreach
        obtain ⟨-, hi2, -, -, body2, hb2, hd2⟩ := hreach
        rw [hi] at hi2; cases hi2
        rw [hb] at hb2; cases hb2
        rw [hd] at hd2; cases hd2
        have hcalls := runItems_calls env sink sp1 (workItems env interfaces doc) w1
        have hpre : requestedPools (preamble env sp1) = [] := rfl
        have hpools : ∀ tail, requestedPools tail = [] →
            requestedPools (preamble env sp1 ++
              (runItems env sink sp1 (workItems env interfaces doc) w1).trace ++ tail) =
            (calls (runItems env sink sp1 (workItems env interfaces doc) w1).trace).filterMap
              Call.poolKey := by
          intro tail ht
          rw [requestedPools_append, requestedPools_append, hpre, ht, List.nil_append,
            List.append_nil, requestedPools_eq_calls]
        rw [← expectedCalls_poolKey env interfaces doc.Interface]
        cases herr : (runItems env sink sp1 (workItems env interfaces doc) w1).err with
        | some e =>
          rw [herr] at hr
          rw [hr]
          simp only
          rw [hpools [Event.bodyClose] rfl]
          exact ⟨hcalls.1.filterMap _, fun h => by simp at h⟩
        | none =>
          rw [herr] at hr
          rw [hr]
          simp only
          rw [hpools [Event.setAddressSpace sp1, Event.bodyClose] rfl, (hcalls.2 herr).1]
          exact ⟨List.prefix_refl _, fun _ _ => rfl⟩
  · intro interfaces i key hkey
    unfold interfacePoolRequests at hkey
    cases hm : matchingInterface env interfaces (ToLower env.unicodeToLower i.MacAddress) with
    | none => simp [hm] at hkey
    | some iface =>
      simp only [hm] at hkey
      split at hkey
      · simp at hkey
      · simp only [List.mem_filterMap] at hkey
        obtain ⟨sn, -, hsn⟩ := hkey
        cases hc : env.parseCIDR sn.Prefix with
        | error e => simp [hc] at hsn
        | ok subnet =>
          simp only [hc, Option.some.injEq] at hsn
          rw [← hsn]

/-- The document that names the MAC of `eth0` twice, primary and then secondary,
with the same subnet: the first pool is requested with priority 0 and the second
with priority 1. -/
theorem refresh_pool_priority_witness :
    requestedPools (refresh (scenarioEnv duplicateMacDoc) (startedSource countingSink)
      0).trace =
      [("eth0", 0, ⟨[10, 0, 0, 0], [255, 255, 255, 0]⟩),
       ("eth0", 1, ⟨[10, 0, 0, 0], [255, 255, 255, 0]⟩)] :=
  (((refresh_pool_priority (scenarioEnv duplicateMacDoc) (startedSource countingSink) 0).1
    [⟨"lo", []⟩, ⟨"eth0", [0x00, 0x11, 0x22, 0x33, 0x44, 0x55]⟩] "<Interfaces/>"
    duplicateMacDoc rfl rfl rfl).2 (by decide) (by decide)).trans (by decide)

end Entries

section Normalization

section Attribute

variable {σ : Type}

end Attribute

end Normalization

end Ipam
